import Mathlib

/-!
# SH1106 display driver: `addon/display/sh1106/sh1106device.cpp`

A shallow embedding of `CSH1106Device`.

* A `u8` is a `Fin 256`; an `int` is an `Int`.  C++ `int` arithmetic agrees with
  `Int` arithmetic as long as no signed overflow occurs, so the embedding speaks
  for the runs of the driver that stay inside the `int` range.
* Passing an `int` expression to a `u8` parameter truncates it modulo 256 (`toU8`).
* `x & 0x0F` and `x >> 4` on `int` are the two's complement operations, which are
  `Int.land` and the arithmetic `Int.shiftRight`.
* The I2C master is an external collaborator; what the driver does to it is the
  sequence of `Write (address, buffer, count)` calls, recorded oldest first in
  `m_I2CMaster`.  The value returned by `Write` is ignored by the driver.
* A `const char*` text is the list of the `char` values stored at the pointer; the
  loops stop at the first NUL and at the end of the list.
* The glyph table `CSH1106DeviceFont8x8` lives in `sh1106font_8x8.h` and is taken
  as a parameter `font`, with `font i j` standing for `CSH1106DeviceFont8x8[i][j]`.
-/

namespace SH1106

/-- An unsigned 8-bit value. -/
abbrev u8 := Fin 256

/-- Conversion of an `int` value to `u8`: reduction modulo 256. -/
def toU8 (v : Int) : u8 := ⟨(v % 256).toNat, by omega⟩

/-- One call `Write (address, buffer, sizeof (buffer))` on the I2C master. -/
structure BusWrite where
  address : u8
  buffer : List u8
deriving DecidableEq, Repr

/-- The frame `{0x00, command}` sent to `address`. -/
def commandFrame (address command : u8) : BusWrite := ⟨address, [0x00, command]⟩

/-- The frame `{0x40, data}` sent to `address`. -/
def dataFrame (address data : u8) : BusWrite := ⟨address, [0x40, data]⟩

/-- `const int padding = 2;` -/
def padding : Int := 2

/-- The members of `CSH1106Device`: the I2C master (as the log of its `Write`
calls), the bus address and the 8 x 132 frame buffer. -/
structure CSH1106Device where
  m_I2CMaster : List BusWrite
  m_Address : u8
  frameBuffer : Fin 8 → Fin 132 → u8

namespace CSH1106Device

/-- `WriteCommand (u8 command)`: one bus write of `{0x00, command}`. -/
def WriteCommand (d : CSH1106Device) (command : u8) : CSH1106Device :=
  { d with m_I2CMaster := d.m_I2CMaster ++ [⟨d.m_Address, [0x00, command]⟩] }

/-- `WriteData (u8 data)`: one bus write of `{0x40, data}`. -/
def WriteData (d : CSH1106Device) (data : u8) : CSH1106Device :=
  { d with m_I2CMaster := d.m_I2CMaster ++ [⟨d.m_Address, [0x40, data]⟩] }

/-- `SetCursor (int x, int y)`. -/
def SetCursor (d : CSH1106Device) (x y : Int) : CSH1106Device :=
  let d := d.WriteCommand (toU8 (0xB0 + y))
  let d := d.WriteCommand (toU8 (0x00 + Int.land x 0x0F))
  d.WriteCommand (toU8 (0x10 + (x >>> 4)))

/-- `Clear ()`: for each page 0..7, set the cursor and write 132 zero bytes. -/
def Clear (d : CSH1106Device) : CSH1106Device :=
  (List.range 8).foldl
    (fun d (page : Nat) =>
      (List.range 132).foldl (fun d (_ : Nat) => d.WriteData 0x00) (d.SetCursor 0 (page : Int)))
    d

/-- The table `initCommands` of `Initialize`. -/
def initCommands : List u8 :=
  [0xAE, 0xD5, 0x80, 0xA8, 0x3F, 0xD3, 0x00, 0x40, 0xAD, 0x8B, 0xA1, 0xC8,
   0xDA, 0x12, 0x81, 0xCF, 0xD9, 0xF1, 0xDB, 0x40, 0xA4, 0xA6, 0xAF]

/-- `Initialize ()`: the returned `bool` and the device afterwards. -/
def Initialize (d : CSH1106Device) : Bool × CSH1106Device :=
  let d := initCommands.foldl
    (fun d (cmd : u8) => (if cmd = 0xAF then d.Clear else d).WriteCommand cmd) d
  (true, d)

/-- `SetDisplayOn (bool on)`. -/
def SetDisplayOn (d : CSH1106Device) (on_ : Bool) : CSH1106Device :=
  d.WriteCommand (if on_ then 0xAF else 0xAE)

/-- `SetInvertDisplay (bool invert)`. -/
def SetInvertDisplay (d : CSH1106Device) (invert : Bool) : CSH1106Device :=
  d.WriteCommand (if invert then 0xA7 else 0xA6)

/-- `StartHorizontalScroll (bool direction, u8 startPage, u8 endPage)`. -/
def StartHorizontalScroll (d : CSH1106Device) (direction : Bool) (startPage endPage : u8) :
    CSH1106Device :=
  let d := d.WriteCommand (if direction then 0x27 else 0x26)
  let d := d.WriteCommand 0x00
  let d := d.WriteCommand startPage
  let d := d.WriteCommand 0x00
  let d := d.WriteCommand endPage
  let d := d.WriteCommand 0x00
  let d := d.WriteCommand 0xFF
  d.WriteCommand 0x2F

/-- `StartVerticalScroll (bool direction, u8 startRow, u8 endRow)`. -/
def StartVerticalScroll (d : CSH1106Device) (direction : Bool) (startRow endRow : u8) :
    CSH1106Device :=
  let d := d.WriteCommand (if direction then 0x2A else 0x29)
  let d := d.WriteCommand 0x00
  let d := d.WriteCommand startRow
  let d := d.WriteCommand endRow
  let d := d.WriteCommand 0x01
  d.WriteCommand 0x2F

/-- `StopScroll ()`. -/
def StopScroll (d : CSH1106Device) : CSH1106Device :=
  d.WriteCommand 0x2E

/-- `ClearRow (int y)`. -/
def ClearRow (d : CSH1106Device) (y : Int) : CSH1106Device :=
  if y < 0 ∨ y ≥ 8 then d
  else (List.range 132).foldl (fun d (_ : Nat) => d.WriteData 0x00) (d.SetCursor 0 y)

/-- The loop of `CalculateTextWidth`: `while (*text++) width += 10;`. -/
def CalculateTextWidth.loop : List Int → Int → Int
  | [], width => width
  | c :: text, width => if c = 0 then width else CalculateTextWidth.loop text (width + 10)

/-- `CalculateTextWidth (const char* text)`. -/
def CalculateTextWidth (text : List Int) : Int :=
  CalculateTextWidth.loop text 0

/-- `DrawChar (char c, int x, int y)`, with `' ' = 0x20` and `'~' = 0x7E`. -/
def DrawChar (font : Int → Int → u8) (d : CSH1106Device) (c : Int) (x y : Int) :
    CSH1106Device :=
  if c < 0x20 ∨ c > 0x7E then d
  else
    let adjustedX := x + padding
    if adjustedX ≥ 128 ∨ y < 0 ∨ y ≥ 8 then d
    else
      let d := d.SetCursor adjustedX y
      (List.range 8).foldl
        (fun d (col : Nat) =>
          let currentX := adjustedX + (col : Int)
          if currentX ≥ 0 ∧ currentX < 128 then d.WriteData (font (c - 0x20) (col : Int))
          else d)
        d

/-- `ClipAndWrap (int& x, int& y)`: the values of `x` and `y` afterwards. -/
def ClipAndWrap (x y : Int) : Int × Int :=
  let (x, y) := if x + 8 + 2 > 128 then ((0 : Int), y + 1) else (x, y)
  let y := if y ≥ 8 then 7 else y
  (x, y)

/-- The loop of `PrintText`, started with `cursorX` and `cursorY`. -/
def PrintText.loop (font : Int → Int → u8) :
    List Int → Int → Int → CSH1106Device → CSH1106Device
  | [], _, _, d => d
  | c :: text, cursorX, cursorY, d =>
    if c = 0 then d
    else
      let (cursorX, cursorY) := ClipAndWrap cursorX cursorY
      if cursorY ≥ 8 then d
      else PrintText.loop font text (cursorX + 10) cursorY (DrawChar font d c cursorX cursorY)

/-- `PrintText (const char* text, int x, int y)`. -/
def PrintText (font : Int → Int → u8) (d : CSH1106Device) (text : List Int) (x y : Int) :
    CSH1106Device :=
  PrintText.loop font text x y d

/-- `PrintCenteredText (const char* text)`; `/` on `int` truncates toward zero. -/
def PrintCenteredText (font : Int → Int → u8) (d : CSH1106Device) (text : List Int) :
    CSH1106Device :=
  let textWidth := CalculateTextWidth text
  let x := Int.tdiv (128 - textWidth) 2
  let y := 3
  PrintText font d text x y

/-- `SetContrast (u8 contrast)`. -/
def SetContrast (d : CSH1106Device) (contrast : u8) : CSH1106Device :=
  (d.WriteCommand 0x81).WriteCommand contrast

/-- `UpdateBuffer (int page, int col, u8 value)`. -/
def UpdateBuffer (d : CSH1106Device) (page col : Int) (value : u8) : CSH1106Device :=
  if page ≥ 0 ∧ page < 8 ∧ col ≥ 0 ∧ col < 132 then
    { d with frameBuffer := fun p c =>
        if (p : Int) = page ∧ (c : Int) = col then value else d.frameBuffer p c }
  else d

/-- `RefreshDisplay ()`. -/
def RefreshDisplay (d : CSH1106Device) : CSH1106Device :=
  (List.finRange 8).foldl
    (fun d (page : Fin 8) =>
      (List.finRange 132).foldl (fun d (col : Fin 132) => d.WriteData (d.frameBuffer page col))
        (d.SetCursor 0 (page : Int)))
    d

/-- `RefreshPage (int page)`. -/
def RefreshPage (d : CSH1106Device) (page : Int) : CSH1106Device :=
  if h : page < 0 ∨ page ≥ 8 then d
  else
    (List.finRange 132).foldl
      (fun d (col : Fin 132) => d.WriteData (d.frameBuffer ⟨page.toNat, by omega⟩ col))
      (d.SetCursor 0 page)

/-- The loop of `DrawVerticalLine`, entered with the loop variable `y`:
`for (...; y < yStart + height && y < 8; ++y) UpdateBuffer (y, x + 2, 0xFF);`. -/
def DrawVerticalLine.loop (x yStart height : Int) (y : Int) (d : CSH1106Device) :
    CSH1106Device :=
  if h : y < yStart + height ∧ y < 8 then
    DrawVerticalLine.loop x yStart height (y + 1) (d.UpdateBuffer y (x + 2) 0xFF)
  else d
termination_by (8 - y).toNat
decreasing_by omega

/-- `DrawVerticalLine (int x, int yStart, int height)`. -/
def DrawVerticalLine (d : CSH1106Device) (x yStart height : Int) : CSH1106Device :=
  if x < 0 ∨ x ≥ 128 then d
  else (DrawVerticalLine.loop x yStart height yStart d).RefreshDisplay

/-- The loop of `DrawHorizontalLine`, entered with the loop variable `i`:
`for (...; i < length && (x + i) < 128; ++i) WriteData (0xFF);`. -/
def DrawHorizontalLine.loop (x length : Int) (i : Int) (d : CSH1106Device) :
    CSH1106Device :=
  if h : i < length ∧ x + i < 128 then
    DrawHorizontalLine.loop x length (i + 1) (d.WriteData 0xFF)
  else d
termination_by (length - i).toNat
decreasing_by omega

/-- `DrawHorizontalLine (int x, int y, int length)`. -/
def DrawHorizontalLine (d : CSH1106Device) (x y length : Int) : CSH1106Device :=
  if y < 0 ∨ y ≥ 8 then d
  else DrawHorizontalLine.loop x length 0 (d.SetCursor x y)

/-- The device after the bus writes `fs` have been added to the log. -/
def emit (d : CSH1106Device) (fs : List BusWrite) : CSH1106Device :=
  { d with m_I2CMaster := d.m_I2CMaster ++ fs }

/-- The bus writes that the operation `op` performs when it is run on `d`. -/
def busTrace (op : CSH1106Device → CSH1106Device) (d : CSH1106Device) : List BusWrite :=
  (op d).m_I2CMaster.drop d.m_I2CMaster.length

/-- A device at the default address 0x3C with an empty log and a zero frame buffer. -/
def sampleDevice : CSH1106Device := ⟨[], 0x3C, fun _ _ => 0⟩

/-- A glyph table for examples: entry `[i][j]` is the byte `8 * i + j`. -/
def sampleFont : Int → Int → u8 := fun i j => toU8 (8 * i + j)

/-- The payload bytes of the data frames of a trace, in order. -/
def dataBytes (t : List BusWrite) : List u8 :=
  t.filterMap (fun w => if w.buffer.head? = some 0x40 then w.buffer[1]? else none)

/-- A frame of exactly two bytes sent to `address`, with control byte 0x00 or 0x40. -/
def isFrameTo (address : u8) (w : BusWrite) : Prop :=
  w.address = address ∧ w.buffer.length = 2 ∧
    (w.buffer.head? = some 0x00 ∨ w.buffer.head? = some 0x40)

/-- Every bus write of `op`, on every device, is a well-formed frame to its address. -/
def FramesWellFormed (op : CSH1106Device → CSH1106Device) : Prop :=
  ∀ d, ∀ w ∈ busTrace op d, isFrameTo d.m_Address w

/-- The operation `op` leaves every cell of the frame buffer as it was. -/
def MirrorKept (op : CSH1106Device → CSH1106Device) : Prop :=
  ∀ d, (op d).frameBuffer = d.frameBuffer

/-- The bus writes of `op` are the same on devices that differ in the frame buffer (and
in the earlier bus log) only. -/
def TraceMirrorFree (op : CSH1106Device → CSH1106Device) : Prop :=
  ∀ d1 d2 : CSH1106Device, d1.m_Address = d2.m_Address → busTrace op d1 = busTrace op d2

/-- A function giving bus writes from the address and the frame buffer. -/
abbrev TraceFn := u8 → (Fin 8 → Fin 132 → u8) → List BusWrite

/-- The operation `op` only adds bus writes, given by a function with the property `G`. -/
def EmitsWith (G : TraceFn → Prop) (op : CSH1106Device → CSH1106Device) : Prop :=
  ∃ g : TraceFn, G g ∧ ∀ d, op d = emit d (g d.m_Address d.frameBuffer)

/-- The property `G` holds of no writes and of the concatenation of two trace functions. -/
def ClosedUnderAppend (G : TraceFn → Prop) : Prop :=
  G (fun _ _ => []) ∧ ∀ g h, G g → G h → G (fun a fb => g a fb ++ h a fb)

/-- Well-formed frames to the address, not depending on the frame buffer. -/
def PlainFrames (g : TraceFn) : Prop :=
  (∀ a fb, ∀ w ∈ g a fb, isFrameTo a w) ∧ ∀ a fb1 fb2, g a fb1 = g a fb2

/-- One call of `SetCursor (x, y)` together with the data bytes written after it. -/
structure CursorCall where
  x : Int
  y : Int
  data : List u8

/-- The bus writes of `SetCursor (x, y)` on a device with the address `a`. -/
def cursorFrames (a : u8) (x y : Int) : List BusWrite :=
  (SetCursor ⟨[], a, fun _ _ => 0⟩ x y).m_I2CMaster

/-- The bus writes of a sequence of `SetCursor` calls, each followed by its data bytes. -/
def callFrames (a : u8) (calls : List CursorCall) : List BusWrite :=
  calls.flatMap (fun c => cursorFrames a c.x c.y ++ c.data.map (dataFrame a))

/-- The bus writes of `op` are those of `SetCursor` calls with a page in `[0,8)`, each
followed by data bytes. -/
def PagesInRange (op : CSH1106Device → CSH1106Device) : Prop :=
  ∀ d, ∃ calls : List CursorCall,
    busTrace op d = callFrames d.m_Address calls ∧ ∀ c ∈ calls, 0 ≤ c.y ∧ c.y < 8

/-- Writes that are `SetCursor` calls with a page in `[0,8)`, each followed by data bytes. -/
def CheckedCalls (g : TraceFn) : Prop :=
  ∀ a fb, ∃ calls : List CursorCall,
    g a fb = callFrames a calls ∧ ∀ c ∈ calls, 0 ≤ c.y ∧ c.y < 8

/-! ## Auxiliary facts -/

theorem emit_def (d : CSH1106Device) (fs : List BusWrite) :
    emit d fs = { d with m_I2CMaster := d.m_I2CMaster ++ fs } := rfl

@[simp] theorem emit_m_Address (d : CSH1106Device) (fs : List BusWrite) :
    (emit d fs).m_Address = d.m_Address := rfl

@[simp] theorem emit_frameBuffer (d : CSH1106Device) (fs : List BusWrite) :
    (emit d fs).frameBuffer = d.frameBuffer := rfl

@[simp] theorem emit_m_I2CMaster (d : CSH1106Device) (fs : List BusWrite) :
    (emit d fs).m_I2CMaster = d.m_I2CMaster ++ fs := rfl

@[simp] theorem emit_emit (d : CSH1106Device) (fs gs : List BusWrite) :
    emit (emit d fs) gs = emit d (fs ++ gs) := by
  simp [emit]

@[simp] theorem emit_nil (d : CSH1106Device) : emit d [] = d := by
  simp [emit]

theorem busTrace_of_emit (op : CSH1106Device → CSH1106Device) (d : CSH1106Device)
    (fs : List BusWrite) (h : op d = emit d fs) : busTrace op d = fs := by
  simp [busTrace, h]

theorem range8 : List.range 8 = [0, 1, 2, 3, 4, 5, 6, 7] := by decide

theorem finRange8 : List.finRange 8 = [0, 1, 2, 3, 4, 5, 6, 7] := by decide

theorem land_lt (x : Nat) : x &&& 0x0F < 256 :=
  lt_of_le_of_lt Nat.and_le_right (by decide)

theorem shr_lt (x : Nat) (hx : x < 132) : 0x10 + (x >>> 4) < 256 := by
  rw [Nat.shiftRight_eq_div_pow]; omega

theorem land_ofNat (x : Nat) : Int.land (x : Int) 0x0F = ((x &&& 0x0F : Nat) : Int) := rfl

theorem shr_ofNat (x : Nat) : (x : Int) >>> 4 = ((x >>> 4 : Nat) : Int) := rfl

theorem WriteCommand_emit (d : CSH1106Device) (c : u8) :
    d.WriteCommand c = emit d [commandFrame d.m_Address c] := rfl

theorem WriteData_emit (d : CSH1106Device) (c : u8) :
    d.WriteData c = emit d [dataFrame d.m_Address c] := rfl

theorem SetCursor_emit (d : CSH1106Device) (x y : Int) :
    d.SetCursor x y = emit d
      [commandFrame d.m_Address (toU8 (0xB0 + y)),
       commandFrame d.m_Address (toU8 (0x00 + Int.land x 0x0F)),
       commandFrame d.m_Address (toU8 (0x10 + (x >>> 4)))] := by
  simp [SetCursor, WriteCommand_emit]

/-- A loop whose body only adds bus writes, chosen from the address and the frame
buffer, adds the concatenation of the writes of its iterations. -/
theorem foldl_emit {α : Type} (step : CSH1106Device → α → CSH1106Device)
    (g : u8 → (Fin 8 → Fin 132 → u8) → α → List BusWrite)
    (h : ∀ d a, step d a = emit d (g d.m_Address d.frameBuffer a))
    (l : List α) (d : CSH1106Device) :
    l.foldl step d = emit d (l.flatMap (g d.m_Address d.frameBuffer)) := by
  induction l generalizing d with
  | nil => simp
  | cons a l ih => rw [List.foldl_cons, ih, h]; simp

theorem foldl_WriteData_const {α : Type} (l : List α) (v : u8) (d : CSH1106Device) :
    l.foldl (fun d (_ : α) => d.WriteData v) d =
      emit d (List.replicate l.length (dataFrame d.m_Address v)) := by
  rw [foldl_emit _ (fun a _ _ => [dataFrame a v]) (fun d _ => WriteData_emit d v)]
  congr 1
  induction l with
  | nil => rfl
  | cons a l ih => simp [List.replicate_succ, ih]

theorem Clear_emit (d : CSH1106Device) :
    d.Clear = emit d
      ((List.range 8).flatMap (fun page : Nat =>
        [commandFrame d.m_Address (toU8 (0xB0 + (page : Int))),
         commandFrame d.m_Address 0x00,
         commandFrame d.m_Address 0x10] ++ List.replicate 132 (dataFrame d.m_Address 0x00))) := by
  unfold Clear
  rw [foldl_emit _ (fun a _ (page : Nat) =>
        [commandFrame a (toU8 (0xB0 + (page : Int))),
         commandFrame a 0x00,
         commandFrame a 0x10] ++ List.replicate 132 (dataFrame a 0x00))]
  intro d page
  rw [foldl_WriteData_const, SetCursor_emit]
  simp
  congr

theorem busTrace_Clear_congr (d1 d2 : CSH1106Device) (h : d1.m_Address = d2.m_Address) :
    busTrace Clear d1 = busTrace Clear d2 := by
  rw [busTrace_of_emit Clear d1 _ (Clear_emit d1), busTrace_of_emit Clear d2 _ (Clear_emit d2), h]

theorem Initialize_emit (d : CSH1106Device) :
    d.Initialize.2 = emit d
      ((([0xAE, 0xD5, 0x80, 0xA8, 0x3F, 0xD3, 0x00, 0x40, 0xAD, 0x8B, 0xA1, 0xC8,
          0xDA, 0x12, 0x81, 0xCF, 0xD9, 0xF1, 0xDB, 0x40, 0xA4, 0xA6] : List u8).map
            (commandFrame d.m_Address)
          ++ busTrace Clear d) ++ [commandFrame d.m_Address 0xAF]) := by
  rw [busTrace_of_emit Clear d _ (Clear_emit d)]
  simp only [Initialize, initCommands, List.foldl_cons, List.foldl_nil]
  simp only [WriteCommand_emit, Clear_emit, emit_emit, emit_m_Address]
  simp +decide only [if_true, if_false, emit_emit, emit_m_Address, Clear_emit,
    List.map_cons, List.map_nil, List.append_assoc, List.cons_append, List.nil_append]

/-! ## Cursor addressing, initialisation and clearing -/

/-- Claim C1. For `x` in `[0,132)` and `y` in `[0,8)`, `SetCursor (x, y)` adds exactly
the three command frames `{0x00, 0xB0 + y}`, `{0x00, x & 0x0F}`, `{0x00, 0x10 + (x >> 4)}`
to the bus, in this order, and changes neither the address nor the frame buffer. -/
theorem SetCursor_frames (d : CSH1106Device) (x y : Nat) (hx : x < 132) (hy : y < 8) :
    d.SetCursor x y = { d with m_I2CMaster := d.m_I2CMaster ++
        [commandFrame d.m_Address ⟨0xB0 + y, by omega⟩,
         commandFrame d.m_Address ⟨x &&& 0x0F, land_lt x⟩,
         commandFrame d.m_Address ⟨0x10 + (x >>> 4), shr_lt x hx⟩] } := by
  rw [SetCursor_emit, emit_def]
  have h1 : toU8 (0xB0 + (y : Int)) = ⟨0xB0 + y, by omega⟩ := by
    apply Fin.ext; simp only [toU8]; omega
  have h2 : toU8 (0x00 + Int.land (x : Int) 0x0F) = ⟨x &&& 0x0F, land_lt x⟩ := by
    rw [land_ofNat]; apply Fin.ext; simp only [toU8]
    have := land_lt x
    omega
  have h3 : toU8 (0x10 + ((x : Int) >>> 4)) = ⟨0x10 + (x >>> 4), shr_lt x hx⟩ := by
    rw [shr_ofNat]; apply Fin.ext; simp only [toU8]
    have := shr_lt x hx
    omega
  rw [h1, h2, h3]

/-- Witness of C1 at `SetCursor (131, 7)` on the sample device. -/
theorem SetCursor_frames_witness :
    131 < 132 ∧ 7 < 8 ∧
    sampleDevice.SetCursor (131 : Nat) (7 : Nat) =
      { sampleDevice with m_I2CMaster := sampleDevice.m_I2CMaster ++
        [commandFrame sampleDevice.m_Address ⟨0xB0 + 7, by omega⟩,
         commandFrame sampleDevice.m_Address ⟨131 &&& 0x0F, land_lt 131⟩,
         commandFrame sampleDevice.m_Address ⟨0x10 + (131 >>> 4), shr_lt 131 (by decide)⟩] } :=
  ⟨by decide, by decide, SetCursor_frames sampleDevice 131 7 (by decide) (by decide)⟩

/-- Claim C2. `Initialize ()` returns `true`; its bus writes are the 22 configuration
commands in order, then the bus writes of `Clear ()` run at that point, then the command
`0xAF`.  So `0xAF` is sent exactly once, as the last write, and all 8 x 132 zero data
writes come before it. -/
theorem Initialize_trace (d : CSH1106Device) :
    d.Initialize.1 = true ∧
    d.Initialize.2 = { d with m_I2CMaster := d.m_I2CMaster ++
      (([0xAE, 0xD5, 0x80, 0xA8, 0x3F, 0xD3, 0x00, 0x40, 0xAD, 0x8B, 0xA1, 0xC8,
          0xDA, 0x12, 0x81, 0xCF, 0xD9, 0xF1, 0xDB, 0x40, 0xA4, 0xA6] : List u8).map
            (commandFrame d.m_Address)
        ++ busTrace Clear
            { d with m_I2CMaster := d.m_I2CMaster ++
              (([0xAE, 0xD5, 0x80, 0xA8, 0x3F, 0xD3, 0x00, 0x40, 0xAD, 0x8B, 0xA1, 0xC8,
                0xDA, 0x12, 0x81, 0xCF, 0xD9, 0xF1, 0xDB, 0x40, 0xA4, 0xA6] : List u8).map
                  (commandFrame d.m_Address)) }
        ++ [commandFrame d.m_Address 0xAF]) } ∧
    (busTrace (fun d => d.Initialize.2) d).length = 22 + 1080 + 1 ∧
    (busTrace (fun d => d.Initialize.2) d).getLast? = some (commandFrame d.m_Address 0xAF) ∧
    (busTrace (fun d => d.Initialize.2) d).countP
      (fun w => w = commandFrame d.m_Address 0xAF) = 1 ∧
    (busTrace (fun d => d.Initialize.2) d).countP
      (fun w => w.buffer.head? = some 0x40) = 8 * 132 ∧
    (busTrace (fun d => d.Initialize.2) d).dropLast.countP
      (fun w => w = dataFrame d.m_Address 0x00) = 8 * 132 := by
  have h := Initialize_emit d
  have ht := busTrace_of_emit (fun d => d.Initialize.2) d _ h
  have hc := busTrace_of_emit Clear d _ (Clear_emit d)
  refine ⟨rfl, ?_, ?_, ?_, ?_, ?_, ?_⟩
  · have e : ∀ l, busTrace Clear { d with m_I2CMaster := l } = busTrace Clear d :=
      fun l => busTrace_Clear_congr _ d rfl
    rw [h, emit_def, e (d.m_I2CMaster ++ _)]
  · rw [ht, hc, range8]
    simp only [List.flatMap_cons, List.flatMap_nil, List.length_append, List.length_cons,
      List.length_nil, List.length_replicate, List.length_map]
  · rw [ht, List.getLast?_concat]
  · rw [ht, hc, range8]
    simp only [List.flatMap_cons, List.flatMap_nil, List.countP_cons, List.countP_nil,
      List.countP_append, List.countP_replicate, List.map_cons, List.map_nil,
      commandFrame, dataFrame]
    simp +decide [toU8]
  · rw [ht, hc, range8]
    simp only [List.flatMap_cons, List.flatMap_nil, List.countP_cons, List.countP_nil,
      List.countP_append, List.countP_replicate, List.map_cons, List.map_nil,
      commandFrame, dataFrame]
    simp
  · rw [ht, List.dropLast_concat, hc, range8]
    simp only [List.flatMap_cons, List.flatMap_nil, List.countP_cons, List.countP_nil,
      List.countP_append, List.countP_replicate, List.map_cons, List.map_nil,
      commandFrame, dataFrame]
    simp

/-- Claim C3. `Clear ()` adds, for page = 0, ..., 7 in order, the three command frames
of `SetCursor (0, page)` (`0xB0 + page`, `0x00`, `0x10`) and then 132 data frames
`{0x40, 0x00}`: 1080 writes, of which 8 * 132 = 1056 are data frames, all zero, and 24
are command frames.  The writes depend on the bus address only, not on the frame
buffer, and the address and the frame buffer are left as they were. -/
theorem Clear_trace (d : CSH1106Device) :
    d.Clear = { d with m_I2CMaster := d.m_I2CMaster ++
        (List.finRange 8).flatMap (fun page : Fin 8 =>
          [commandFrame d.m_Address ⟨0xB0 + page.val, by omega⟩,
           commandFrame d.m_Address 0x00,
           commandFrame d.m_Address 0x10] ++ List.replicate 132 (dataFrame d.m_Address 0x00)) } ∧
    (busTrace Clear d).length = 1080 ∧
    (busTrace Clear d).countP (fun w => w = dataFrame d.m_Address 0x00) = 8 * 132 ∧
    (busTrace Clear d).countP (fun w => w.buffer.head? = some 0x40) = 1056 ∧
    (busTrace Clear d).countP (fun w => w.buffer.head? = some 0x00) = 24 ∧
    (∀ d2 : CSH1106Device, d2.m_Address = d.m_Address →
      busTrace Clear d2 = busTrace Clear d) := by
  have h := Clear_emit d
  have ht := busTrace_of_emit Clear d _ h
  refine ⟨?_, ?_, ?_, ?_, ?_, ?_⟩
  · rw [h, emit_def, range8, finRange8]
    rfl
  · rw [ht, range8]
    simp only [List.flatMap_cons, List.flatMap_nil, List.length_append, List.length_cons,
      List.length_nil, List.length_replicate]
  · rw [ht, range8]
    simp only [List.flatMap_cons, List.flatMap_nil, List.countP_cons, List.countP_nil,
      List.countP_append, List.countP_replicate, commandFrame, dataFrame]
    simp
  · rw [ht, range8]
    simp only [List.flatMap_cons, List.flatMap_nil, List.countP_cons, List.countP_nil,
      List.countP_append, List.countP_replicate, commandFrame, dataFrame]
    simp
  · rw [ht, range8]
    simp only [List.flatMap_cons, List.flatMap_nil, List.countP_cons, List.countP_nil,
      List.countP_append, List.countP_replicate, commandFrame, dataFrame]
    simp
  · exact fun d2 h2 => busTrace_Clear_congr d2 d h2

/-! ## Text rendering -/

theorem flatMap_ite_singleton {α β : Type} (p : α → Prop) [DecidablePred p] (f : α → β)
    (l : List α) :
    l.flatMap (fun a => if p a then [f a] else []) = (l.filter (fun a => p a)).map f := by
  induction l with
  | nil => rfl
  | cons a l ih =>
    by_cases h : p a <;> simp [List.flatMap_cons, List.filter_cons, h, ih]

theorem DrawChar_emit (font : Int → Int → u8) (d : CSH1106Device) (c x y : Int)
    (hc : 0x20 ≤ c ∧ c ≤ 0x7E) (hy : 0 ≤ y ∧ y < 8) (hx : x + 2 < 128) :
    DrawChar font d c x y = emit (d.SetCursor (x + 2) y)
      (((List.range 8).filter (fun col : Nat => 0 ≤ x + 2 + (col : Int) ∧ x + 2 + (col : Int) < 128)).map
        (fun col : Nat => dataFrame d.m_Address (font (c - 0x20) (col : Int)))) := by
  have h1 : ¬ (c < 0x20 ∨ c > 0x7E) := by omega
  have h2 : ¬ (x + padding ≥ 128 ∨ y < 0 ∨ y ≥ 8) := by simp only [padding]; omega
  unfold DrawChar
  rw [if_neg h1]
  simp only [if_neg h2]
  rw [foldl_emit _ (fun a _ (col : Nat) =>
      if x + 2 + (col : Int) ≥ 0 ∧ x + 2 + (col : Int) < 128 then
        [dataFrame a (font (c - 0x20) (col : Int))] else [])]
  · rw [flatMap_ite_singleton]
    simp [SetCursor_emit, padding]
  · intro d col
    simp only [padding]
    split_ifs
    · rw [WriteData_emit]
    · simp

theorem visible_all (x : Int) (h1 : -2 ≤ x) (h2 : x ≤ 118) :
    (List.range 8).filter (fun col : Nat => 0 ≤ x + 2 + (col : Int) ∧ x + 2 + (col : Int) < 128)
      = List.range 8 := by
  apply List.filter_eq_self.2
  intro col hcol
  have := List.mem_range.1 hcol
  simp only [decide_eq_true_eq]
  omega

theorem visible_clipped (x : Int) (h1 : 119 ≤ x) (h2 : x ≤ 125) :
    (((List.range 8).filter
      (fun col : Nat => 0 ≤ x + 2 + (col : Int) ∧ x + 2 + (col : Int) < 128)).length : Int)
      = 126 - x := by
  interval_cases x <;> decide

theorem DrawChar_eq_self (font : Int → Int → u8) (d : CSH1106Device) (c x y : Int)
    (h : (c < 0x20 ∨ c > 0x7E) ∨ (x + 2 ≥ 128 ∨ y < 0 ∨ y ≥ 8)) :
    DrawChar font d c x y = d := by
  unfold DrawChar
  by_cases h1 : c < 0x20 ∨ c > 0x7E
  · rw [if_pos h1]
  · have h2 : x + padding ≥ 128 ∨ y < 0 ∨ y ≥ 8 := by
      simpa only [padding] using h.resolve_left h1
    rw [if_neg h1]
    simp only [if_pos h2]

theorem ClipAndWrap_eq (x y : Int) :
    ClipAndWrap x y =
      (if x + 10 > 128 then (0, if y + 1 ≥ 8 then 7 else y + 1)
       else (x, if y ≥ 8 then 7 else y)) := by
  unfold ClipAndWrap
  by_cases h : x + 8 + 2 > 128
  · have h2 : x + 10 > 128 := by omega
    simp [h, h2]
  · have h2 : ¬ x + 10 > 128 := by omega
    simp [h, h2]

theorem ClipAndWrap_bounds (x y : Int) (hx : -2 ≤ x) (hy : 0 ≤ y) :
    -2 ≤ (ClipAndWrap x y).1 ∧ (ClipAndWrap x y).1 ≤ 118 ∧
    0 ≤ (ClipAndWrap x y).2 ∧ (ClipAndWrap x y).2 ≤ 7 := by
  rw [ClipAndWrap_eq]
  split_ifs <;> simp <;> omega

theorem DrawChar_exists_emit (font : Int → Int → u8) (d : CSH1106Device) (c x y : Int) :
    ∃ fs, DrawChar font d c x y = emit d fs := by
  by_cases h : (c < 0x20 ∨ c > 0x7E) ∨ (x + 2 ≥ 128 ∨ y < 0 ∨ y ≥ 8)
  · exact ⟨[], by rw [DrawChar_eq_self font d c x y h, emit_nil]⟩
  · rw [DrawChar_emit font d c x y (by omega) (by omega) (by omega), SetCursor_emit, emit_emit]
    exact ⟨_, rfl⟩

theorem PrintText_loop_exists_emit (font : Int → Int → u8) (text : List Int) :
    ∀ (cursorX cursorY : Int) (d : CSH1106Device),
      ∃ fs, PrintText.loop font text cursorX cursorY d = emit d fs := by
  induction text with
  | nil => intro _ _ d; exact ⟨[], by simp [PrintText.loop]⟩
  | cons c text ih =>
    intro cursorX cursorY d
    unfold PrintText.loop
    by_cases hc : c = 0
    · exact ⟨[], by simp [hc]⟩
    · rw [if_neg hc]
      by_cases hy : (ClipAndWrap cursorX cursorY).2 ≥ 8
      · exact ⟨[], by simp [hy]⟩
      · obtain ⟨fs1, h1⟩ := DrawChar_exists_emit font d c (ClipAndWrap cursorX cursorY).1
          (ClipAndWrap cursorX cursorY).2
        obtain ⟨fs2, h2⟩ := ih ((ClipAndWrap cursorX cursorY).1 + 10)
          (ClipAndWrap cursorX cursorY).2 (emit d fs1)
        refine ⟨fs1 ++ fs2, ?_⟩
        simp only [if_neg hy, h1, h2, emit_emit]

theorem DrawChar_length (font : Int → Int → u8) (d : CSH1106Device) (c x y : Int)
    (hc : 0x20 ≤ c ∧ c ≤ 0x7E) (hy : 0 ≤ y ∧ y < 8) (hx : -2 ≤ x ∧ x ≤ 118) :
    (DrawChar font d c x y).m_I2CMaster.length = d.m_I2CMaster.length + 11 := by
  rw [DrawChar_emit font d c x y hc hy (by omega), visible_all x hx.1 hx.2, SetCursor_emit]
  simp

theorem PrintText_loop_length (font : Int → Int → u8) (text : List Int)
    (hs : ∀ c ∈ text, 0x20 ≤ c ∧ c ≤ 0x7E) :
    ∀ (cursorX cursorY : Int) (d : CSH1106Device), -2 ≤ cursorX → 0 ≤ cursorY →
      (PrintText.loop font text cursorX cursorY d).m_I2CMaster.length
        = d.m_I2CMaster.length + 11 * text.length := by
  induction text with
  | nil => intro _ _ d _ _; simp [PrintText.loop]
  | cons c text ih =>
    intro cursorX cursorY d hx hy
    have hc := hs c (List.mem_cons_self _ _)
    have hc0 : c ≠ 0 := by omega
    have hcw := ClipAndWrap_bounds cursorX cursorY hx hy
    have hy8 : ¬ (ClipAndWrap cursorX cursorY).2 ≥ 8 := by omega
    unfold PrintText.loop
    rw [if_neg hc0]
    simp only [if_neg hy8]
    rw [ih (fun c hc => hs c (List.mem_cons_of_mem _ hc)) _ _ _ (by omega) (by omega),
      DrawChar_length font d c _ _ hc (by omega) (by omega), List.length_cons]
    omega


theorem PrintText_m_Address (font : Int → Int → u8) (d : CSH1106Device) (text : List Int)
    (x y : Int) : (PrintText font d text x y).m_Address = d.m_Address := by
  obtain ⟨fs, h⟩ := PrintText_loop_exists_emit font text x y d
  rw [PrintText, h, emit_m_Address]

theorem CalculateTextWidth_loop_eq (text : List Int) (width : Int) :
    CalculateTextWidth.loop text width
      = width + 10 * ((text.takeWhile (fun c => c ≠ 0)).length : Int) := by
  induction text generalizing width with
  | nil => simp [CalculateTextWidth.loop]
  | cons c text ih =>
    unfold CalculateTextWidth.loop
    by_cases hc : c = 0
    · simp [hc]
    · rw [if_neg hc, ih]
      simp [List.takeWhile_cons, hc]
      omega

/-- Claim C4. `DrawChar (c, x, y)` does nothing at all (no bus write, frame buffer and
address as before) when `c` is below 0x20 or above 0x7E, and also when `x + 2 >= 128`
or `y < 0` or `y >= 8`. -/
theorem DrawChar_rejects (font : Int → Int → u8) (d : CSH1106Device) (c x y : Int)
    (h : (c < 0x20 ∨ c > 0x7E) ∨ (x + 2 ≥ 128 ∨ y < 0 ∨ y ≥ 8)) :
    DrawChar font d c x y = d ∧ busTrace (fun d => DrawChar font d c x y) d = [] := by
  have key := DrawChar_eq_self font d c x y h
  exact ⟨key, by simp [busTrace, key]⟩

/-- Witness of C4: the character 0x7F at (0, 0), and the letter A at (126, 0). -/
theorem DrawChar_rejects_witness :
    (((0x7F : Int) < 0x20 ∨ (0x7F : Int) > 0x7E) ∨ ((0 : Int) + 2 ≥ 128 ∨ (0 : Int) < 0 ∨ (0 : Int) ≥ 8)) ∧
    (DrawChar sampleFont sampleDevice 0x7F 0 0 = sampleDevice ∧
      busTrace (fun d => DrawChar sampleFont d 0x7F 0 0) sampleDevice = []) ∧
    (DrawChar sampleFont sampleDevice 0x41 126 0 = sampleDevice ∧
      busTrace (fun d => DrawChar sampleFont d 0x41 126 0) sampleDevice = []) :=
  ⟨by decide, DrawChar_rejects sampleFont sampleDevice 0x7F 0 0 (by decide),
    DrawChar_rejects sampleFont sampleDevice 0x41 126 0 (by decide)⟩

/-- Claim C5. For a supported character `c`, `y` in `[0,8)` and `x + 2 < 128`, the bus
writes of `DrawChar (c, x, y)` are those of `SetCursor (x + 2, y)` (three frames) followed
by the data frame of glyph byte `col` for each `col` in 0..7, in increasing order, with
`0 <= x + 2 + col < 128`.  For `-2 <= x <= 118` these are all 8 glyph bytes, for
`119 <= x <= 125` exactly `126 - x` of them. -/
theorem DrawChar_trace (font : Int → Int → u8) (d : CSH1106Device) (c x y : Int)
    (hc : 0x20 ≤ c ∧ c ≤ 0x7E) (hy : 0 ≤ y ∧ y < 8) (hx : x + 2 < 128) :
    DrawChar font d c x y =
      { (d.SetCursor (x + 2) y) with m_I2CMaster := ((d.SetCursor (x + 2) y).m_I2CMaster ++
        ((List.range 8).filter
          (fun col : Nat => 0 ≤ x + 2 + (col : Int) ∧ x + 2 + (col : Int) < 128)).map
          (fun col : Nat => dataFrame d.m_Address (font (c - 0x20) (col : Int)))) } ∧
    (busTrace (fun d => d.SetCursor (x + 2) y) d).length = 3 ∧
    (-2 ≤ x → x ≤ 118 →
      busTrace (fun d => DrawChar font d c x y) d =
        busTrace (fun d => d.SetCursor (x + 2) y) d ++
          (List.range 8).map (fun col : Nat => dataFrame d.m_Address (font (c - 0x20) (col : Int)))) ∧
    (119 ≤ x → x ≤ 125 →
      ((busTrace (fun d => DrawChar font d c x y) d).length : Int) = 3 + (126 - x)) := by
  have h := DrawChar_emit font d c x y hc hy hx
  have hs := busTrace_of_emit (fun d => d.SetCursor (x + 2) y) d _ (SetCursor_emit d (x + 2) y)
  rw [SetCursor_emit, emit_emit] at h
  have ht := busTrace_of_emit (fun d => DrawChar font d c x y) d _ h
  refine ⟨?_, ?_, ?_, ?_⟩
  · rw [h, SetCursor_emit]; simp [emit_def]
  · rw [hs]; rfl
  · intro h1 h2
    rw [ht, hs, visible_all x h1 h2]
  · intro h1 h2
    rw [ht]
    simp only [List.length_append, List.length_map, List.length_cons, List.length_nil]
    have := visible_clipped x h1 h2
    omega

/-- Witness of C5: the letter A drawn at (120, 7) is clipped to 6 columns. -/
theorem DrawChar_trace_witness :
    ((0x20 : Int) ≤ 0x41 ∧ (0x41 : Int) ≤ 0x7E) ∧ ((0 : Int) ≤ 7 ∧ (7 : Int) < 8) ∧
    (120 : Int) + 2 < 128 ∧
    ((busTrace (fun d => DrawChar sampleFont d 0x41 120 7) sampleDevice).length : Int)
      = 3 + (126 - 120) :=
  ⟨by decide, by decide, by decide,
    (DrawChar_trace sampleFont sampleDevice 0x41 120 7 (by decide) (by decide)
      (by decide)).2.2.2 (by decide) (by decide)⟩

/-- Claim C6. `ClipAndWrap` maps `(x, y)` to `(0, y + 1)` when `x + 10 > 128` and to
`(x, y)` otherwise, the row then being clamped to 7 when it is 8 or more.  So
`(121, 2)` goes to `(0, 3)`, `(121, 7)` goes to `(0, 7)`, and the resulting row is never
above 7. -/
theorem ClipAndWrap_spec (x y : Int) :
    ClipAndWrap x y =
      (if x + 10 > 128 then (0, if y + 1 ≥ 8 then 7 else y + 1)
       else (x, if y ≥ 8 then 7 else y)) ∧
    ClipAndWrap 121 2 = (0, 3) ∧
    ClipAndWrap 121 7 = (0, 7) ∧
    (ClipAndWrap x y).2 ≤ 7 := by
  refine ⟨ClipAndWrap_eq x y, by decide, by decide, ?_⟩
  rw [ClipAndWrap_eq]
  split_ifs <;> simp <;> omega

set_option maxRecDepth 100000 in
/-- Claim C7, evaluated on the code.  The claim says that text overflowing the last row
is cut off.  On the code, printing 97 letters A from (0, 0) draws the 97th letter as well,
at (0, 7): its 11 bus writes (cursor to column 2 of page 7, then the 8 glyph bytes) follow
the 1056 writes of the first 96 letters. -/
theorem PrintText_past_last_row (font : Int → Int → u8) (d : CSH1106Device) :
    PrintText font d (List.replicate 97 0x41) 0 0 =
      DrawChar font (PrintText font d (List.replicate 96 0x41) 0 0) 0x41 0 7 ∧
    (busTrace (fun d => PrintText font d (List.replicate 96 0x41) 0 0) d).length = 1056 ∧
    (busTrace (fun d => PrintText font d (List.replicate 97 0x41) 0 0) d).length = 1067 ∧
    (PrintText font d (List.replicate 97 0x41) 0 0).m_I2CMaster =
      (PrintText font d (List.replicate 96 0x41) 0 0).m_I2CMaster ++
        ([commandFrame d.m_Address 0xB7, commandFrame d.m_Address 0x02,
          commandFrame d.m_Address 0x10] ++
         (List.range 8).map (fun col : Nat => dataFrame d.m_Address (font 0x21 (col : Int)))) := by
  have e : PrintText font d (List.replicate 97 0x41) 0 0 =
      DrawChar font (PrintText font d (List.replicate 96 0x41) 0 0) 0x41 0 7 := rfl
  have hs : ∀ n : Nat, ∀ c ∈ List.replicate n (0x41 : Int), 0x20 ≤ c ∧ c ≤ 0x7E := by
    intro n c hc
    rw [List.eq_of_mem_replicate hc]
    decide
  have hl : ∀ n : Nat, (busTrace (fun d => PrintText font d (List.replicate n 0x41) 0 0) d).length
      = 11 * n := by
    intro n
    have := PrintText_loop_length font _ (hs n) 0 0 d (by decide) (by decide)
    simp only [busTrace, PrintText, List.length_drop, this, List.length_replicate]
    omega
  refine ⟨e, hl 96, hl 97, ?_⟩
  rw [e, DrawChar_emit font _ 0x41 0 7 (by decide) (by decide) (by decide),
    visible_all 0 (by decide) (by decide), SetCursor_emit, emit_emit, PrintText_m_Address]
  rfl

/-- Claim C8. `PrintCenteredText (text)` is `PrintText (text, (128 - 10 * n) / 2, 3)`
for a text of `n` characters (the characters before the first NUL): the width is
`10 * n`, the start column is `(128 - width) / 2 = 64 - 5 * n`, not clamped, and the row
is 3.  For "HI" the width is 20, the start column is 54, and the letters are drawn by
`DrawChar ('H', 54, 3)` and then `DrawChar ('I', 64, 3)`. -/
theorem PrintCenteredText_eq (font : Int → Int → u8) (d : CSH1106Device) (text : List Int) :
    CalculateTextWidth text = 10 * ((text.takeWhile (fun c => c ≠ 0)).length : Int) ∧
    PrintCenteredText font d text =
      PrintText font d text
        (Int.tdiv (128 - 10 * ((text.takeWhile (fun c => c ≠ 0)).length : Int)) 2) 3 ∧
    Int.tdiv (128 - 10 * ((text.takeWhile (fun c => c ≠ 0)).length : Int)) 2
      = 64 - 5 * ((text.takeWhile (fun c => c ≠ 0)).length : Int) ∧
    CalculateTextWidth [0x48, 0x49] = 20 ∧
    Int.tdiv (128 - CalculateTextWidth [0x48, 0x49]) 2 = 54 ∧
    PrintCenteredText font d [0x48, 0x49] =
      DrawChar font (DrawChar font d 0x48 54 3) 0x49 64 3 := by
  have hw : CalculateTextWidth text
      = 10 * ((text.takeWhile (fun c => c ≠ 0)).length : Int) := by
    rw [CalculateTextWidth, CalculateTextWidth_loop_eq]; omega
  refine ⟨hw, ?_, ?_, by decide, by decide, rfl⟩
  · simp only [PrintCenteredText, hw]
  · generalize ((text.takeWhile (fun c => c ≠ 0)).length : Int) = n
    have : 128 - 10 * n = 2 * (64 - 5 * n) := by ring
    rw [this, Int.mul_tdiv_cancel_left _ (by decide)]

/-! ## Lines and the frame buffer -/

/-- Claim C9. `DrawVerticalLine (x, yStart, height)` with `x < 0` or `x >= 128` does
nothing (no bus write, frame buffer as before), and `DrawHorizontalLine (x, y, length)`
with `y < 0` or `y >= 8` does nothing. -/
theorem line_rejects (d : CSH1106Device) (x yStart height x2 y length : Int) :
    ((x < 0 ∨ x ≥ 128) →
      d.DrawVerticalLine x yStart height = d ∧
      busTrace (fun d => d.DrawVerticalLine x yStart height) d = []) ∧
    ((y < 0 ∨ y ≥ 8) →
      d.DrawHorizontalLine x2 y length = d ∧
      busTrace (fun d => d.DrawHorizontalLine x2 y length) d = []) := by
  constructor
  · intro h
    have key : d.DrawVerticalLine x yStart height = d := by
      unfold DrawVerticalLine; rw [if_pos h]
    exact ⟨key, by simp [busTrace, key]⟩
  · intro h
    have key : d.DrawHorizontalLine x2 y length = d := by
      unfold DrawHorizontalLine; rw [if_pos h]
    exact ⟨key, by simp [busTrace, key]⟩

/-- Witness of C9: a vertical line at `x = -1` and a horizontal line at `y = 8`. -/
theorem line_rejects_witness :
    (((-1 : Int) < 0 ∨ (-1 : Int) ≥ 128) ∧ ((8 : Int) < 0 ∨ (8 : Int) ≥ 8)) ∧
    (sampleDevice.DrawVerticalLine (-1) 0 8 = sampleDevice ∧
      busTrace (fun d => d.DrawVerticalLine (-1) 0 8) sampleDevice = []) ∧
    (sampleDevice.DrawHorizontalLine 0 8 128 = sampleDevice ∧
      busTrace (fun d => d.DrawHorizontalLine 0 8 128) sampleDevice = []) :=
  ⟨by decide, (line_rejects sampleDevice (-1) 0 8 0 8 128).1 (by decide),
    (line_rejects sampleDevice (-1) 0 8 0 8 128).2 (by decide)⟩

/-- Claim C10. `UpdateBuffer (page, col, value)` writes nothing to the bus.  With
`0 <= page < 8` and `0 <= col < 132` the frame buffer afterwards holds `value` at
`(page, col)` and is unchanged elsewhere; otherwise (for example page 8, a negative index
or column 132) the device is unchanged. -/
theorem UpdateBuffer_spec (d : CSH1106Device) (page col : Int) (value : u8) :
    (d.UpdateBuffer page col value).m_I2CMaster = d.m_I2CMaster ∧
    (d.UpdateBuffer page col value).m_Address = d.m_Address ∧
    busTrace (fun d => d.UpdateBuffer page col value) d = [] ∧
    (∀ (p : Fin 8) (c : Fin 132), (p : Int) = page → (c : Int) = col →
      (d.UpdateBuffer page col value).frameBuffer p c = value) ∧
    (∀ (p : Fin 8) (c : Fin 132), ¬ ((p : Int) = page ∧ (c : Int) = col) →
      (d.UpdateBuffer page col value).frameBuffer p c = d.frameBuffer p c) ∧
    (¬ (0 ≤ page ∧ page < 8 ∧ 0 ≤ col ∧ col < 132) → d.UpdateBuffer page col value = d) ∧
    d.UpdateBuffer 8 0 value = d ∧
    d.UpdateBuffer (-1) 0 value = d ∧
    d.UpdateBuffer 0 (-1) value = d ∧
    d.UpdateBuffer 0 132 value = d := by
  have hb : (d.UpdateBuffer page col value).m_I2CMaster = d.m_I2CMaster := by
    unfold UpdateBuffer; split_ifs <;> rfl
  refine ⟨hb, ?_, ?_, ?_, ?_, ?_, rfl, rfl, rfl, rfl⟩
  · unfold UpdateBuffer; split_ifs <;> rfl
  · simp [busTrace, hb]
  · intro p c hp hc
    have hr : page ≥ 0 ∧ page < 8 ∧ col ≥ 0 ∧ col < 132 := by
      have := p.isLt
      have := c.isLt
      omega
    unfold UpdateBuffer
    rw [if_pos hr]
    simp [hp, hc]
  · intro p c hne
    unfold UpdateBuffer
    split_ifs
    · simp [hne]
    · rfl
  · intro h
    have hr : ¬ (page ≥ 0 ∧ page < 8 ∧ col ≥ 0 ∧ col < 132) := by omega
    unfold UpdateBuffer
    rw [if_neg hr]

/-- Witness of C10: cell (7, 131) is written, its neighbour is kept, and page 8 is
rejected. -/
theorem UpdateBuffer_spec_witness :
    (sampleDevice.UpdateBuffer 7 131 0xFF).frameBuffer 7 131 = 0xFF ∧
    (sampleDevice.UpdateBuffer 7 131 0xFF).frameBuffer 7 130 = sampleDevice.frameBuffer 7 130 ∧
    sampleDevice.UpdateBuffer 8 0 0xFF = sampleDevice :=
  ⟨(UpdateBuffer_spec sampleDevice 7 131 0xFF).2.2.2.1 7 131 (by decide) (by decide),
   (UpdateBuffer_spec sampleDevice 7 131 0xFF).2.2.2.2.1 7 130 (by decide),
   (UpdateBuffer_spec sampleDevice 8 0 0xFF).2.2.2.2.2.1 (by decide)⟩

/-! ## Refreshing the display from the frame buffer -/

theorem dataBytes_append (s t : List BusWrite) :
    dataBytes (s ++ t) = dataBytes s ++ dataBytes t := by
  simp [dataBytes, List.filterMap_append]

theorem dataBytes_commandFrame (a c : u8) (t : List BusWrite) :
    dataBytes (commandFrame a c :: t) = dataBytes t := by
  simp [dataBytes, commandFrame, List.filterMap_cons]

theorem dataBytes_dataFrame (a v : u8) (t : List BusWrite) :
    dataBytes (dataFrame a v :: t) = v :: dataBytes t := by
  simp [dataBytes, dataFrame, List.filterMap_cons]

theorem dataBytes_map_dataFrame {α : Type} (a : u8) (h : α → u8) (l : List α) :
    dataBytes (l.map (fun c => dataFrame a (h c))) = l.map h := by
  induction l with
  | nil => rfl
  | cons x l ih => rw [List.map_cons, dataBytes_dataFrame, ih, List.map_cons]

theorem flatMap_singleton_map {α β : Type} (f : α → β) (l : List α) :
    l.flatMap (fun a => [f a]) = l.map f := by
  induction l with
  | nil => rfl
  | cons a l ih => simp [List.flatMap_cons, ih]

theorem refreshRow_emit (d : CSH1106Device) (page : Fin 8) (y : Int) :
    (List.finRange 132).foldl (fun d (col : Fin 132) => d.WriteData (d.frameBuffer page col))
        (d.SetCursor 0 y) =
      emit d ([commandFrame d.m_Address (toU8 (0xB0 + y)),
               commandFrame d.m_Address 0x00,
               commandFrame d.m_Address 0x10] ++
              (List.finRange 132).map (fun col => dataFrame d.m_Address (d.frameBuffer page col))) := by
  rw [foldl_emit _ (fun a fb (col : Fin 132) => [dataFrame a (fb page col)])
    (fun d col => WriteData_emit d _), flatMap_singleton_map, SetCursor_emit]
  simp
  congr

theorem RefreshDisplay_emit (d : CSH1106Device) :
    d.RefreshDisplay = emit d
      ((List.finRange 8).flatMap (fun page : Fin 8 =>
        [commandFrame d.m_Address (toU8 (0xB0 + (page : Int))),
         commandFrame d.m_Address 0x00,
         commandFrame d.m_Address 0x10] ++
        (List.finRange 132).map (fun col => dataFrame d.m_Address (d.frameBuffer page col)))) := by
  unfold RefreshDisplay
  rw [foldl_emit _ (fun a fb (page : Fin 8) =>
        [commandFrame a (toU8 (0xB0 + (page : Int))),
         commandFrame a 0x00,
         commandFrame a 0x10] ++ (List.finRange 132).map (fun col => dataFrame a (fb page col)))]
  intro d page
  exact refreshRow_emit d page page

theorem RefreshPage_emit (d : CSH1106Device) (page : Fin 8) :
    d.RefreshPage (page : Int) = emit d
      ([commandFrame d.m_Address (toU8 (0xB0 + (page : Int))),
        commandFrame d.m_Address 0x00,
        commandFrame d.m_Address 0x10] ++
       (List.finRange 132).map (fun col => dataFrame d.m_Address (d.frameBuffer page col))) := by
  have h : ¬ ((page : Int) < 0 ∨ (page : Int) ≥ 8) := by
    have := page.isLt
    omega
  unfold RefreshPage
  rw [dif_neg h]
  have e : (⟨((page : Nat) : Int).toNat, by omega⟩ : Fin 8) = page := by
    apply Fin.ext; simp
  simp only [e]
  exact refreshRow_emit d page page

theorem RefreshPage_eq_self (d : CSH1106Device) (page : Int) (h : page < 0 ∨ page ≥ 8) :
    d.RefreshPage page = d := by
  unfold RefreshPage
  rw [dif_pos h]

theorem getElem?_flatMap_uniform {α β : Type} (g : α → List β) (m : Nat)
    (hm : ∀ a, (g a).length = m) :
    ∀ (l : List α) (i j : Nat), j < m →
      (l.flatMap g)[i * m + j]? = (l[i]?).bind (fun a => (g a)[j]?) := by
  intro l
  induction l with
  | nil => intro i j _; simp
  | cons a l ih =>
    intro i j hj
    rw [List.flatMap_cons]
    cases i with
    | zero =>
      simp only [Nat.zero_mul, Nat.zero_add, List.getElem?_cons_zero, Option.some_bind]
      rw [List.getElem?_append_left (by rw [hm]; exact hj)]
    | succ i =>
      rw [List.getElem?_append_right (by rw [hm]; nlinarith)]
      have : (i + 1) * m + j - (g a).length = i * m + j := by
        rw [hm, Nat.add_mul]; omega
      rw [this, ih i j hj]
      simp

theorem dataBytes_RefreshDisplay (d : CSH1106Device) :
    dataBytes (busTrace RefreshDisplay d) =
      (List.finRange 8).flatMap (fun page : Fin 8 =>
        (List.finRange 132).map (fun col => d.frameBuffer page col)) := by
  rw [busTrace_of_emit RefreshDisplay d _ (RefreshDisplay_emit d)]
  generalize List.finRange 8 = l
  induction l with
  | nil => rfl
  | cons p l ih =>
    rw [List.flatMap_cons, List.flatMap_cons, dataBytes_append, ih]
    simp only [List.cons_append, List.nil_append, dataBytes_commandFrame,
      dataBytes_map_dataFrame]

theorem RefreshDisplay_dataByte (d : CSH1106Device) (p : Fin 8) (c : Fin 132) :
    (dataBytes (busTrace RefreshDisplay d))[(p : Nat) * 132 + (c : Nat)]?
      = some (d.frameBuffer p c) := by
  rw [dataBytes_RefreshDisplay,
    getElem?_flatMap_uniform _ 132 (fun a => by simp) _ _ _ c.isLt]
  have hp : (List.finRange 8)[(p : Nat)]? = some p := by
    rw [List.getElem?_eq_getElem (by simp)]; simp
  have hc : (List.finRange 132)[(c : Nat)]? = some c := by
    rw [List.getElem?_eq_getElem (by simp)]; simp
  rw [hp, Option.some_bind, List.getElem?_map, hc]
  rfl


theorem UpdateBuffer_frameBuffer_self (d : CSH1106Device) (p : Fin 8) (c : Fin 132) (v : u8) :
    (d.UpdateBuffer (p : Int) (c : Int) v).frameBuffer p c = v := by
  have hr : ((p : Nat) : Int) ≥ 0 ∧ ((p : Nat) : Int) < 8 ∧ ((c : Nat) : Int) ≥ 0 ∧
      ((c : Nat) : Int) < 132 := by
    have := p.isLt
    have := c.isLt
    omega
  unfold UpdateBuffer
  rw [if_pos hr]
  simp

theorem Initialize_frameBuffer (d : CSH1106Device) :
    d.Initialize.2.frameBuffer = d.frameBuffer := by
  rw [Initialize_emit, emit_frameBuffer]

/-- Claim C11. `RefreshDisplay ()` adds, for page = 0, ..., 7 in order, the three command
frames of `SetCursor (0, page)` and then the 132 data frames of the frame buffer bytes of
that page in column order (1080 writes), and leaves the frame buffer unchanged.  So data
byte number `p * 132 + c` is the frame buffer byte at `(p, c)`; after
`UpdateBuffer (p, c, v)` it is `v`, with `Initialize ()` run before, after, or not at all. -/
theorem RefreshDisplay_trace (d : CSH1106Device) :
    d.RefreshDisplay = { d with m_I2CMaster := (d.m_I2CMaster ++
      (List.finRange 8).flatMap (fun page : Fin 8 =>
        [commandFrame d.m_Address ⟨0xB0 + page.val, by omega⟩,
         commandFrame d.m_Address 0x00,
         commandFrame d.m_Address 0x10] ++
        (List.finRange 132).map (fun col => dataFrame d.m_Address (d.frameBuffer page col)))) } ∧
    (busTrace RefreshDisplay d).length = 1080 ∧
    d.RefreshDisplay.frameBuffer = d.frameBuffer ∧
    (∀ (p : Fin 8) (c : Fin 132),
      (dataBytes (busTrace RefreshDisplay d))[(p : Nat) * 132 + (c : Nat)]?
        = some (d.frameBuffer p c)) ∧
    (∀ (p : Fin 8) (c : Fin 132) (v : u8),
      (dataBytes (busTrace RefreshDisplay (d.UpdateBuffer p c v)))[(p : Nat) * 132 + (c : Nat)]?
        = some v) ∧
    (∀ (p : Fin 8) (c : Fin 132) (v : u8),
      (dataBytes (busTrace RefreshDisplay
        (d.UpdateBuffer p c v).Initialize.2))[(p : Nat) * 132 + (c : Nat)]? = some v) ∧
    (∀ (p : Fin 8) (c : Fin 132) (v : u8),
      (dataBytes (busTrace RefreshDisplay
        (d.Initialize.2.UpdateBuffer p c v)))[(p : Nat) * 132 + (c : Nat)]? = some v) ∧
    (dataBytes (busTrace RefreshDisplay (d.Initialize.2.UpdateBuffer 0 0 0xFF)))[0]?
      = some 0xFF := by
  have h := RefreshDisplay_emit d
  have key : ∀ (p : Fin 8) (c : Fin 132) (v : u8),
      (dataBytes (busTrace RefreshDisplay
        (d.Initialize.2.UpdateBuffer p c v)))[(p : Nat) * 132 + (c : Nat)]? = some v := by
    intro p c v
    rw [RefreshDisplay_dataByte, UpdateBuffer_frameBuffer_self]
  refine ⟨?_, ?_, ?_, RefreshDisplay_dataByte d, ?_, ?_, key, ?_⟩
  · rw [h, emit_def, finRange8]
    rfl
  · rw [busTrace_of_emit RefreshDisplay d _ h, finRange8]
    simp only [List.flatMap_cons, List.flatMap_nil, List.length_append, List.length_cons,
      List.length_nil, List.length_map, List.length_finRange]
  · rw [h, emit_frameBuffer]
  · intro p c v
    rw [RefreshDisplay_dataByte, UpdateBuffer_frameBuffer_self]
  · intro p c v
    rw [RefreshDisplay_dataByte, Initialize_frameBuffer, UpdateBuffer_frameBuffer_self]
  · exact key 0 0 0xFF

/-- Claim C12. `RefreshPage (page)` does nothing for `page < 0` or `page >= 8`; for a page
in `[0,8)` it adds the three command frames of `SetCursor (0, page)` and the 132 data
frames of that page in column order.  The bus writes of `RefreshDisplay ()` are those of
`RefreshPage (0)`, ..., `RefreshPage (7)` in a row. -/
theorem RefreshPage_trace (d : CSH1106Device) :
    (∀ page : Int, page < 0 ∨ page ≥ 8 →
      d.RefreshPage page = d ∧ busTrace (fun d => d.RefreshPage page) d = []) ∧
    (∀ page : Fin 8,
      d.RefreshPage (page : Int) = { d with m_I2CMaster := (d.m_I2CMaster ++
        ([commandFrame d.m_Address ⟨0xB0 + page.val, by omega⟩,
          commandFrame d.m_Address 0x00,
          commandFrame d.m_Address 0x10] ++
         (List.finRange 132).map
          (fun col => dataFrame d.m_Address (d.frameBuffer page col)))) }) ∧
    busTrace RefreshDisplay d =
      (List.finRange 8).flatMap (fun page : Fin 8 =>
        busTrace (fun d => d.RefreshPage (page : Int)) d) ∧
    d.RefreshDisplay = (List.finRange 8).foldl (fun d (page : Fin 8) => d.RefreshPage page) d := by
  refine ⟨?_, ?_, ?_, ?_⟩
  · intro page hp
    have key := RefreshPage_eq_self d page hp
    exact ⟨key, by simp [busTrace, key]⟩
  · intro page
    rw [RefreshPage_emit, emit_def]
    have e : toU8 (0xB0 + ((page : Nat) : Int)) = ⟨0xB0 + page.val, by omega⟩ := by
      apply Fin.ext; simp only [toU8]; omega
    rw [e]
  · rw [busTrace_of_emit RefreshDisplay d _ (RefreshDisplay_emit d)]
    congr 1
    funext page
    rw [busTrace_of_emit (fun d => d.RefreshPage (page : Int)) d _ (RefreshPage_emit d page)]
  · rw [RefreshDisplay_emit, foldl_emit _ (fun a fb (page : Fin 8) =>
        [commandFrame a (toU8 (0xB0 + (page : Int))),
         commandFrame a 0x00,
         commandFrame a 0x10] ++ (List.finRange 132).map (fun col => dataFrame a (fb page col)))
        (fun d page => RefreshPage_emit d page)]

/-! ## Drawing lines -/

theorem DrawHorizontalLine_loop_emit (x length : Int) :
    ∀ (n : Nat) (i : Int) (d : CSH1106Device), (min length (128 - x) - i).toNat = n →
      DrawHorizontalLine.loop x length i d =
        emit d (List.replicate n (dataFrame d.m_Address 0xFF)) := by
  intro n
  induction n with
  | zero =>
    intro i d hn
    have hc : ¬ (i < length ∧ x + i < 128) := by omega
    rw [DrawHorizontalLine.loop, dif_neg hc]
    simp
  | succ n ih =>
    intro i d hn
    have hc : i < length ∧ x + i < 128 := by omega
    rw [DrawHorizontalLine.loop, dif_pos hc, ih (i + 1) _ (by omega), WriteData_emit, emit_emit,
      emit_m_Address]
    rfl

theorem DrawHorizontalLine_emit (d : CSH1106Device) (x y length : Int)
    (hy : 0 ≤ y ∧ y < 8) :
    d.DrawHorizontalLine x y length = emit (d.SetCursor x y)
      (List.replicate (max 0 (min length (128 - x))).toNat (dataFrame d.m_Address 0xFF)) := by
  have h : ¬ (y < 0 ∨ y ≥ 8) := by omega
  unfold DrawHorizontalLine
  rw [if_neg h, DrawHorizontalLine_loop_emit x length _ 0 _ rfl, SetCursor_emit]
  have e : (min length (128 - x) - 0).toNat = (max 0 (min length (128 - x))).toNat := by omega
  rw [e]
  rfl

theorem DrawVerticalLine_loop_eq (x yStart height : Int) (hx : 0 ≤ x + 2 ∧ x + 2 < 132) :
    ∀ (n : Nat) (y : Int) (d : CSH1106Device), (8 - y).toNat = n →
      DrawVerticalLine.loop x yStart height y d =
        { d with frameBuffer := fun p c =>
            if y ≤ (p : Int) ∧ (p : Int) < yStart + height ∧ (c : Int) = x + 2 then 0xFF
            else d.frameBuffer p c } := by
  intro n
  induction n with
  | zero =>
    intro y d hn
    have hc : ¬ (y < yStart + height ∧ y < 8) := by omega
    rw [DrawVerticalLine.loop, dif_neg hc]
    have : d.frameBuffer = fun (p : Fin 8) (c : Fin 132) =>
        if y ≤ (p : Int) ∧ (p : Int) < yStart + height ∧ (c : Int) = x + 2 then 0xFF
        else d.frameBuffer p c := by
      funext p c
      have := p.isLt
      rw [if_neg (by omega)]
    rw [← this]
  | succ n ih =>
    intro y d hn
    by_cases hc : y < yStart + height ∧ y < 8
    · rw [DrawVerticalLine.loop, dif_pos hc, ih (y + 1) _ (by omega)]
      unfold UpdateBuffer
      by_cases hr : y ≥ 0 ∧ y < 8 ∧ x + 2 ≥ 0 ∧ x + 2 < 132
      · rw [if_pos hr]
        congr 1
        funext p c
        have := p.isLt
        simp only
        split_ifs <;> first | rfl | omega
      · rw [if_neg hr]
        congr 1
        funext p c
        have := p.isLt
        split_ifs <;> first | rfl | omega
    · rw [DrawVerticalLine.loop, dif_neg hc]
      have : d.frameBuffer = fun (p : Fin 8) (c : Fin 132) =>
          if y ≤ (p : Int) ∧ (p : Int) < yStart + height ∧ (c : Int) = x + 2 then 0xFF
          else d.frameBuffer p c := by
        funext p c
        have := p.isLt
        rw [if_neg (by omega)]
      rw [← this]

theorem SetCursor_busTrace_length (d : CSH1106Device) (x y : Int) :
    (busTrace (fun d => d.SetCursor x y) d).length = 3 := by
  rw [busTrace_of_emit (fun d => d.SetCursor x y) d _ (SetCursor_emit d x y)]
  rfl

theorem DrawVerticalLine_eq (d : CSH1106Device) (x yStart height : Int)
    (hx : 0 ≤ x ∧ x < 128) :
    d.DrawVerticalLine x yStart height =
      RefreshDisplay { d with frameBuffer := (fun p c =>
        if yStart ≤ (p : Int) ∧ (p : Int) < yStart + height ∧ (c : Int) = x + 2 then 0xFF
        else d.frameBuffer p c) } := by
  have h : ¬ (x < 0 ∨ x ≥ 128) := by omega
  unfold DrawVerticalLine
  rw [if_neg h, DrawVerticalLine_loop_eq x yStart height (by omega) _ yStart d rfl]

/-- Claim C13. For `y` in `[0,8)`, `DrawHorizontalLine (x, y, length)` adds the three
command frames of `SetCursor (x, y)`, with `x` as given, followed by exactly
`max (0, min (length, 128 - x))` data frames `{0x40, 0xFF}` and nothing else; the
`i`-th of them belongs to column `x + i < 128`. -/
theorem DrawHorizontalLine_trace (d : CSH1106Device) (x y length : Int)
    (hy : 0 ≤ y ∧ y < 8) :
    d.DrawHorizontalLine x y length =
      { (d.SetCursor x y) with m_I2CMaster := ((d.SetCursor x y).m_I2CMaster ++
        List.replicate (max 0 (min length (128 - x))).toNat (dataFrame d.m_Address 0xFF)) } ∧
    busTrace (fun d => d.DrawHorizontalLine x y length) d =
      busTrace (fun d => d.SetCursor x y) d ++
        List.replicate (max 0 (min length (128 - x))).toNat (dataFrame d.m_Address 0xFF) ∧
    (busTrace (fun d => d.SetCursor x y) d).length = 3 ∧
    (∀ i : Nat, i < (max 0 (min length (128 - x))).toNat → x + (i : Int) < 128) := by
  have h := DrawHorizontalLine_emit d x y length hy
  refine ⟨?_, ?_, SetCursor_busTrace_length d x y, ?_⟩
  · rw [h, emit_def]
  · rw [SetCursor_emit, emit_emit] at h
    rw [busTrace_of_emit (fun d => d.DrawHorizontalLine x y length) d _ h,
      busTrace_of_emit (fun d => d.SetCursor x y) d _ (SetCursor_emit d x y)]
  · intro i hi
    omega

/-- Witness of C13: a line of length 9 from column 125 on page 2 is cut to 3 bytes. -/
theorem DrawHorizontalLine_trace_witness :
    ((0 : Int) ≤ 2 ∧ (2 : Int) < 8) ∧
    busTrace (fun d => d.DrawHorizontalLine 125 2 9) sampleDevice =
      busTrace (fun d => d.SetCursor 125 2) sampleDevice ++
        List.replicate (max 0 (min 9 (128 - 125) : Int)).toNat
          (dataFrame sampleDevice.m_Address 0xFF) :=
  ⟨by decide, (DrawHorizontalLine_trace sampleDevice 125 2 9 (by decide)).2.1⟩

/-- Claim C14. For `x` in `[0,128)`, `DrawVerticalLine (x, yStart, height)` sets the
frame buffer cell `(page, x + 2)` to 0xFF exactly for the pages with
`max (yStart, 0) <= page < min (yStart + height, 8)`, leaves every other cell as it was,
and then adds the bus writes of `RefreshDisplay ()` on the updated frame buffer, 1080 in
all, also when `height <= 0` and no cell changes. -/
theorem DrawVerticalLine_spec (d : CSH1106Device) (x yStart height : Int)
    (hx : 0 ≤ x ∧ x < 128) :
    (∀ (p : Fin 8) (c : Fin 132),
      (d.DrawVerticalLine x yStart height).frameBuffer p c =
        if max yStart 0 ≤ (p : Int) ∧ (p : Int) < min (yStart + height) 8 ∧ (c : Int) = x + 2
        then 0xFF else d.frameBuffer p c) ∧
    (d.DrawVerticalLine x yStart height).m_Address = d.m_Address ∧
    busTrace (fun d => d.DrawVerticalLine x yStart height) d =
      busTrace RefreshDisplay
        { d with frameBuffer := (d.DrawVerticalLine x yStart height).frameBuffer } ∧
    (busTrace (fun d => d.DrawVerticalLine x yStart height) d).length = 1080 ∧
    (height ≤ 0 → (d.DrawVerticalLine x yStart height).frameBuffer = d.frameBuffer) := by
  have h := DrawVerticalLine_eq d x yStart height hx
  have hfb : ∀ (p : Fin 8) (c : Fin 132),
      (d.DrawVerticalLine x yStart height).frameBuffer p c =
        if max yStart 0 ≤ (p : Int) ∧ (p : Int) < min (yStart + height) 8 ∧ (c : Int) = x + 2
        then 0xFF else d.frameBuffer p c := by
    intro p c
    rw [h, RefreshDisplay_emit, emit_frameBuffer]
    have := p.isLt
    have hiff : (yStart ≤ ((p : Nat) : Int) ∧ ((p : Nat) : Int) < yStart + height ∧
        ((c : Nat) : Int) = x + 2) ↔
        (max yStart 0 ≤ ((p : Nat) : Int) ∧ ((p : Nat) : Int) < min (yStart + height) 8 ∧
        ((c : Nat) : Int) = x + 2) := by omega
    simp only [hiff]
  have ht : busTrace (fun d => d.DrawVerticalLine x yStart height) d =
      busTrace RefreshDisplay
        { d with frameBuffer := (d.DrawVerticalLine x yStart height).frameBuffer } := by
    have e : (d.DrawVerticalLine x yStart height).frameBuffer =
        fun (p : Fin 8) (c : Fin 132) =>
          if yStart ≤ (p : Int) ∧ (p : Int) < yStart + height ∧ (c : Int) = x + 2 then 0xFF
          else d.frameBuffer p c := by
      rw [h, RefreshDisplay_emit, emit_frameBuffer]
    rw [e]
    simp only [busTrace, h]
  refine ⟨hfb, ?_, ht, ?_, ?_⟩
  · rw [h, RefreshDisplay_emit, emit_m_Address]
  · rw [ht, busTrace_of_emit RefreshDisplay _ _ (RefreshDisplay_emit _), finRange8]
    simp only [List.flatMap_cons, List.flatMap_nil, List.length_append, List.length_cons,
      List.length_nil, List.length_map, List.length_finRange]
  · intro hh
    funext p c
    rw [hfb p c, if_neg (by omega)]

/-- Witness of C14: the line `x = 5`, `yStart = -3`, `height = 5` reaches pages 0 and 1
in column 7. -/
theorem DrawVerticalLine_spec_witness :
    ((0 : Int) ≤ 5 ∧ (5 : Int) < 128) ∧
    (busTrace (fun d => d.DrawVerticalLine 5 (-3) 5) sampleDevice).length = 1080 ∧
    (sampleDevice.DrawVerticalLine 5 (-3) 5).frameBuffer 1 7 = 0xFF ∧
    (sampleDevice.DrawVerticalLine 5 (-3) 5).frameBuffer 2 7 = 0 :=
  ⟨by decide, (DrawVerticalLine_spec sampleDevice 5 (-3) 5 (by decide)).2.2.2.1,
   ((DrawVerticalLine_spec sampleDevice 5 (-3) 5 (by decide)).1 1 7).trans (by decide),
   ((DrawVerticalLine_spec sampleDevice 5 (-3) 5 (by decide)).1 2 7).trans (by decide)⟩

/-! ## Scrolling -/

/-- Claim C17. `StartHorizontalScroll (direction, startPage, endPage)` adds the 8 command
frames `0x27` (or `0x26` when `direction` is false), `0x00`, `startPage`, `0x00`,
`endPage`, `0x00`, `0xFF`, `0x2F`, and `StartVerticalScroll (direction, startRow, endRow)`
the 6 command frames `0x2A` (or `0x29`), `0x00`, `startRow`, `endRow`, `0x01`, `0x2F`, in
this order and with nothing else. -/
theorem scroll_frames (d : CSH1106Device) (direction : Bool) (first last : u8) :
    d.StartHorizontalScroll direction first last =
      { d with m_I2CMaster := (d.m_I2CMaster ++
        ([if direction then 0x27 else 0x26, 0x00, first, 0x00, last, 0x00, 0xFF, 0x2F] :
          List u8).map (commandFrame d.m_Address)) } ∧
    d.StartVerticalScroll direction first last =
      { d with m_I2CMaster := (d.m_I2CMaster ++
        ([if direction then 0x2A else 0x29, 0x00, first, last, 0x01, 0x2F] :
          List u8).map (commandFrame d.m_Address)) } ∧
    busTrace (fun d => d.StartHorizontalScroll true first last) d =
      [commandFrame d.m_Address 0x27, commandFrame d.m_Address 0x00,
       commandFrame d.m_Address first, commandFrame d.m_Address 0x00,
       commandFrame d.m_Address last, commandFrame d.m_Address 0x00,
       commandFrame d.m_Address 0xFF, commandFrame d.m_Address 0x2F] ∧
    busTrace (fun d => d.StartHorizontalScroll false first last) d =
      [commandFrame d.m_Address 0x26, commandFrame d.m_Address 0x00,
       commandFrame d.m_Address first, commandFrame d.m_Address 0x00,
       commandFrame d.m_Address last, commandFrame d.m_Address 0x00,
       commandFrame d.m_Address 0xFF, commandFrame d.m_Address 0x2F] ∧
    busTrace (fun d => d.StartVerticalScroll true first last) d =
      [commandFrame d.m_Address 0x2A, commandFrame d.m_Address 0x00,
       commandFrame d.m_Address first, commandFrame d.m_Address last,
       commandFrame d.m_Address 0x01, commandFrame d.m_Address 0x2F] ∧
    busTrace (fun d => d.StartVerticalScroll false first last) d =
      [commandFrame d.m_Address 0x29, commandFrame d.m_Address 0x00,
       commandFrame d.m_Address first, commandFrame d.m_Address last,
       commandFrame d.m_Address 0x01, commandFrame d.m_Address 0x2F] := by
  have hh : d.StartHorizontalScroll direction first last = emit d
      (([if direction then 0x27 else 0x26, 0x00, first, 0x00, last, 0x00, 0xFF, 0x2F] :
          List u8).map (commandFrame d.m_Address)) := by
    simp [StartHorizontalScroll, WriteCommand_emit]
  have hv : d.StartVerticalScroll direction first last = emit d
      (([if direction then 0x2A else 0x29, 0x00, first, last, 0x01, 0x2F] :
          List u8).map (commandFrame d.m_Address)) := by
    simp [StartVerticalScroll, WriteCommand_emit]
  refine ⟨by rw [hh, emit_def], by rw [hv, emit_def], ?_, ?_, ?_, ?_⟩
  · exact busTrace_of_emit _ d _ (by simp [StartHorizontalScroll, WriteCommand_emit])
  · exact busTrace_of_emit _ d _ (by simp [StartHorizontalScroll, WriteCommand_emit])
  · exact busTrace_of_emit _ d _ (by simp [StartVerticalScroll, WriteCommand_emit])
  · exact busTrace_of_emit _ d _ (by simp [StartVerticalScroll, WriteCommand_emit])

/-! ## Properties of all bus writes -/

theorem EmitsWith_id {G : TraceFn → Prop} (hG : ClosedUnderAppend G) :
    EmitsWith G (fun d => d) :=
  ⟨fun _ _ => [], hG.1, fun d => (emit_nil d).symm⟩

theorem EmitsWith_comp {G : TraceFn → Prop} (hG : ClosedUnderAppend G)
    (f g : CSH1106Device → CSH1106Device) (hf : EmitsWith G f) (hg : EmitsWith G g) :
    EmitsWith G (fun d => g (f d)) := by
  obtain ⟨tf, hGf, hf⟩ := hf
  obtain ⟨tg, hGg, hg⟩ := hg
  exact ⟨fun a fb => tf a fb ++ tg a fb, hG.2 _ _ hGf hGg, fun d => by
    show g (f d) = emit d (tf d.m_Address d.frameBuffer ++ tg d.m_Address d.frameBuffer)
    rw [hf, hg]; simp⟩

theorem EmitsWith_ite {G : TraceFn → Prop} (p : Prop) [Decidable p]
    (f g : CSH1106Device → CSH1106Device) (hf : EmitsWith G f) (hg : EmitsWith G g) :
    EmitsWith G (fun d => if p then f d else g d) := by
  by_cases h : p
  · simpa only [if_pos h] using hf
  · simpa only [if_neg h] using hg

theorem EmitsWith_foldl {G : TraceFn → Prop} (hG : ClosedUnderAppend G) {α : Type}
    (step : CSH1106Device → α → CSH1106Device) (l : List α)
    (h : ∀ a ∈ l, EmitsWith G (fun d => step d a)) :
    EmitsWith G (fun d => l.foldl step d) := by
  induction l with
  | nil => exact EmitsWith_id hG
  | cons a l ih =>
    simp only [List.foldl_cons]
    exact EmitsWith_comp hG (fun d => step d a) (fun d => l.foldl step d)
      (h a (List.mem_cons_self _ _)) (ih (fun b hb => h b (List.mem_cons_of_mem _ hb)))

theorem EmitsWith_frameBuffer {G : TraceFn → Prop} {op : CSH1106Device → CSH1106Device}
    (h : EmitsWith G op) : MirrorKept op := by
  obtain ⟨g, _, hg⟩ := h
  intro d
  rw [hg, emit_frameBuffer]

theorem EmitsWith_m_Address {G : TraceFn → Prop} {op : CSH1106Device → CSH1106Device}
    (h : EmitsWith G op) (d : CSH1106Device) : (op d).m_Address = d.m_Address := by
  obtain ⟨g, _, hg⟩ := h
  rw [hg, emit_m_Address]

theorem EmitsWith_PrintText_loop {G : TraceFn → Prop} (hG : ClosedUnderAppend G)
    (font : Int → Int → u8)
    (hD : ∀ c x y, EmitsWith G (fun d => DrawChar font d c x y)) (text : List Int) :
    ∀ cursorX cursorY : Int, EmitsWith G (fun d => PrintText.loop font text cursorX cursorY d) := by
  induction text with
  | nil => intro _ _; simpa only [PrintText.loop] using EmitsWith_id hG
  | cons c text ih =>
    intro cursorX cursorY
    simp only [PrintText.loop]
    apply EmitsWith_ite _ _ _ (EmitsWith_id hG)
    apply EmitsWith_ite _ _ _ (EmitsWith_id hG)
    exact EmitsWith_comp hG (fun d => DrawChar font d c (ClipAndWrap cursorX cursorY).1
        (ClipAndWrap cursorX cursorY).2)
      (fun d => PrintText.loop font text ((ClipAndWrap cursorX cursorY).1 + 10)
        (ClipAndWrap cursorX cursorY).2 d) (hD _ _ _) (ih _ _)

theorem PlainFrames_closed : ClosedUnderAppend PlainFrames := by
  refine ⟨⟨fun _ _ w hw => by simp at hw, fun _ _ _ => rfl⟩, ?_⟩
  intro g h hg hh
  refine ⟨fun a fb w hw => ?_, fun a fb1 fb2 => ?_⟩
  · rcases List.mem_append.1 hw with h1 | h1
    · exact hg.1 a fb w h1
    · exact hh.1 a fb w h1
  · simp only [hg.2 a fb1 fb2, hh.2 a fb1 fb2]

theorem isFrameTo_commandFrame (a c : u8) : isFrameTo a (commandFrame a c) :=
  ⟨rfl, rfl, Or.inl rfl⟩

theorem isFrameTo_dataFrame (a v : u8) : isFrameTo a (dataFrame a v) :=
  ⟨rfl, rfl, Or.inr rfl⟩

theorem Plain_WriteCommand (c : u8) : EmitsWith PlainFrames (fun d => d.WriteCommand c) :=
  ⟨fun a _ => [commandFrame a c],
    ⟨fun a _ w hw => by rw [List.mem_singleton.1 hw]; exact isFrameTo_commandFrame a c,
     fun _ _ _ => rfl⟩,
    fun d => WriteCommand_emit d c⟩

theorem Plain_WriteData (v : u8) : EmitsWith PlainFrames (fun d => d.WriteData v) :=
  ⟨fun a _ => [dataFrame a v],
    ⟨fun a _ w hw => by rw [List.mem_singleton.1 hw]; exact isFrameTo_dataFrame a v,
     fun _ _ _ => rfl⟩,
    fun d => WriteData_emit d v⟩

theorem Plain_SetCursor (x y : Int) : EmitsWith PlainFrames (fun d => d.SetCursor x y) :=
  EmitsWith_comp PlainFrames_closed _ (fun d => d.WriteCommand (toU8 (0x10 + (x >>> 4))))
    (EmitsWith_comp PlainFrames_closed (fun d => d.WriteCommand (toU8 (0xB0 + y)))
      (fun d => d.WriteCommand (toU8 (0x00 + Int.land x 0x0F)))
      (Plain_WriteCommand _) (Plain_WriteCommand _))
    (Plain_WriteCommand _)

theorem Plain_row (x y : Int) :
    EmitsWith PlainFrames (fun d =>
      (List.range 132).foldl (fun d (_ : Nat) => d.WriteData 0x00) (d.SetCursor x y)) :=
  EmitsWith_comp PlainFrames_closed (fun d => d.SetCursor x y)
    (fun d => (List.range 132).foldl (fun d (_ : Nat) => d.WriteData 0x00) d)
    (Plain_SetCursor x y)
    (EmitsWith_foldl PlainFrames_closed _ _ (fun _ _ => Plain_WriteData 0x00))

theorem Plain_Clear : EmitsWith PlainFrames Clear :=
  EmitsWith_foldl PlainFrames_closed _ _ (fun page _ => Plain_row 0 page)

theorem Plain_ClearRow (y : Int) : EmitsWith PlainFrames (fun d => d.ClearRow y) :=
  EmitsWith_ite _ _ _ (EmitsWith_id PlainFrames_closed) (Plain_row 0 y)

theorem Plain_Initialize : EmitsWith PlainFrames (fun d => d.Initialize.2) :=
  EmitsWith_foldl PlainFrames_closed _ _ (fun cmd _ =>
    EmitsWith_comp PlainFrames_closed (fun d => if cmd = 0xAF then d.Clear else d)
      (fun d => d.WriteCommand cmd)
      (EmitsWith_ite _ _ _ Plain_Clear (EmitsWith_id PlainFrames_closed))
      (Plain_WriteCommand cmd))

theorem Plain_DrawChar (font : Int → Int → u8) (c x y : Int) :
    EmitsWith PlainFrames (fun d => DrawChar font d c x y) := by
  unfold DrawChar
  apply EmitsWith_ite _ _ _ (EmitsWith_id PlainFrames_closed)
  apply EmitsWith_ite _ _ _ (EmitsWith_id PlainFrames_closed)
  exact EmitsWith_comp PlainFrames_closed (fun d => d.SetCursor (x + padding) y)
    (fun d => (List.range 8).foldl
        (fun d (col : Nat) =>
          if x + padding + (col : Int) ≥ 0 ∧ x + padding + (col : Int) < 128 then
            d.WriteData (font (c - 0x20) (col : Int))
          else d) d)
    (Plain_SetCursor _ _)
    (EmitsWith_foldl PlainFrames_closed _ _ (fun col _ =>
      EmitsWith_ite _ _ _ (Plain_WriteData _) (EmitsWith_id PlainFrames_closed)))

theorem Plain_PrintText (font : Int → Int → u8) (text : List Int) (x y : Int) :
    EmitsWith PlainFrames (fun d => PrintText font d text x y) :=
  EmitsWith_PrintText_loop PlainFrames_closed font (Plain_DrawChar font) text x y

theorem Plain_PrintCenteredText (font : Int → Int → u8) (text : List Int) :
    EmitsWith PlainFrames (fun d => PrintCenteredText font d text) :=
  Plain_PrintText font text _ _

theorem Plain_SetContrast (contrast : u8) :
    EmitsWith PlainFrames (fun d => d.SetContrast contrast) :=
  EmitsWith_comp PlainFrames_closed (fun d => d.WriteCommand 0x81)
    (fun d => d.WriteCommand contrast) (Plain_WriteCommand _) (Plain_WriteCommand _)

theorem Plain_emit_commands (cs : List u8) (op : CSH1106Device → CSH1106Device)
    (h : ∀ d, op d = emit d (cs.map (commandFrame d.m_Address))) :
    EmitsWith PlainFrames op :=
  ⟨fun a _ => cs.map (commandFrame a),
    ⟨fun a _ w hw => by
      obtain ⟨c, _, rfl⟩ := List.mem_map.1 hw
      exact isFrameTo_commandFrame a c,
     fun _ _ _ => rfl⟩, h⟩

theorem Plain_StartHorizontalScroll (direction : Bool) (startPage endPage : u8) :
    EmitsWith PlainFrames (fun d => d.StartHorizontalScroll direction startPage endPage) :=
  Plain_emit_commands
    [if direction then 0x27 else 0x26, 0x00, startPage, 0x00, endPage, 0x00, 0xFF, 0x2F] _
    (fun d => by simp [StartHorizontalScroll, WriteCommand_emit])

theorem Plain_StartVerticalScroll (direction : Bool) (startRow endRow : u8) :
    EmitsWith PlainFrames (fun d => d.StartVerticalScroll direction startRow endRow) :=
  Plain_emit_commands
    [if direction then 0x2A else 0x29, 0x00, startRow, endRow, 0x01, 0x2F] _
    (fun d => by simp [StartVerticalScroll, WriteCommand_emit])

theorem Plain_DrawHorizontalLine (x y length : Int) :
    EmitsWith PlainFrames (fun d => d.DrawHorizontalLine x y length) := by
  unfold DrawHorizontalLine
  apply EmitsWith_ite _ _ _ (EmitsWith_id PlainFrames_closed)
  refine EmitsWith_comp PlainFrames_closed (fun d => d.SetCursor x y)
    (fun d => DrawHorizontalLine.loop x length 0 d) (Plain_SetCursor x y) ?_
  refine ⟨fun a _ => List.replicate (min length (128 - x) - 0).toNat (dataFrame a 0xFF),
    ⟨fun a _ w hw => ?_, fun _ _ _ => rfl⟩,
    fun d => DrawHorizontalLine_loop_emit x length _ 0 d rfl⟩
  rw [List.eq_of_mem_replicate hw]
  exact isFrameTo_dataFrame a 0xFF

theorem Plain_FramesWellFormed {op : CSH1106Device → CSH1106Device}
    (h : EmitsWith PlainFrames op) : FramesWellFormed op := by
  obtain ⟨g, hG, hg⟩ := h
  intro d w hw
  rw [busTrace_of_emit op d _ (hg d)] at hw
  exact hG.1 _ _ w hw

theorem Plain_TraceMirrorFree {op : CSH1106Device → CSH1106Device}
    (h : EmitsWith PlainFrames op) : TraceMirrorFree op := by
  obtain ⟨g, hG, hg⟩ := h
  intro d1 d2 ha
  rw [busTrace_of_emit op d1 _ (hg d1), busTrace_of_emit op d2 _ (hg d2), ha,
    hG.2 _ d1.frameBuffer d2.frameBuffer]

theorem FramesWellFormed_of_emit (op : CSH1106Device → CSH1106Device)
    (h : ∀ d, ∃ fs, op d = emit d fs ∧ ∀ w ∈ fs, isFrameTo d.m_Address w) :
    FramesWellFormed op := by
  intro d w hw
  obtain ⟨fs, hfs, hwf⟩ := h d
  rw [busTrace_of_emit op d _ hfs] at hw
  exact hwf w hw

theorem row_wellformed (a : u8) (c1 c2 c3 : u8) {α : Type} (l : List α) (v : α → u8) :
    ∀ w ∈ [commandFrame a c1, commandFrame a c2, commandFrame a c3] ++
        l.map (fun col => dataFrame a (v col)), isFrameTo a w := by
  intro w hw
  rcases List.mem_append.1 hw with h | h
  · simp only [List.mem_cons, List.mem_singleton, List.not_mem_nil, or_false] at h
    rcases h with rfl | rfl | rfl <;> exact isFrameTo_commandFrame a _
  · obtain ⟨col, _, rfl⟩ := List.mem_map.1 h
    exact isFrameTo_dataFrame a _

theorem FramesWellFormed_RefreshDisplay : FramesWellFormed RefreshDisplay := by
  apply FramesWellFormed_of_emit
  intro d
  refine ⟨_, RefreshDisplay_emit d, ?_⟩
  intro w hw
  obtain ⟨page, _, hp⟩ := List.mem_flatMap.1 hw
  exact row_wellformed _ _ _ _ _ _ w hp

theorem RefreshPage_cases (d : CSH1106Device) (page : Int) :
    d.RefreshPage page = d ∨ ∃ p : Fin 8, (p : Int) = page ∧
      d.RefreshPage page = emit d
        ([commandFrame d.m_Address (toU8 (0xB0 + page)),
          commandFrame d.m_Address 0x00,
          commandFrame d.m_Address 0x10] ++
         (List.finRange 132).map (fun col => dataFrame d.m_Address (d.frameBuffer p col))) := by
  by_cases h : page < 0 ∨ page ≥ 8
  · exact Or.inl (RefreshPage_eq_self d page h)
  · right
    refine ⟨⟨page.toNat, by omega⟩, by simp; omega, ?_⟩
    have e : page = ((⟨page.toNat, by omega⟩ : Fin 8) : Int) := by simp; omega
    conv_lhs => rw [e]
    rw [RefreshPage_emit]
    simp only [← e]

theorem FramesWellFormed_RefreshPage (page : Int) :
    FramesWellFormed (fun d => d.RefreshPage page) := by
  apply FramesWellFormed_of_emit
  intro d
  rcases RefreshPage_cases d page with h | ⟨p, _, h⟩
  · exact ⟨[], by rw [h, emit_nil], fun w hw => by simp at hw⟩
  · exact ⟨_, h, row_wellformed _ _ _ _ _ _⟩

theorem DrawVerticalLine_cases (d : CSH1106Device) (x yStart height : Int) :
    d.DrawVerticalLine x yStart height = d ∨
    ∃ d2 : CSH1106Device, d2.m_Address = d.m_Address ∧ d2.m_I2CMaster = d.m_I2CMaster ∧
      d.DrawVerticalLine x yStart height = d2.RefreshDisplay := by
  by_cases h : x < 0 ∨ x ≥ 128
  · left
    unfold DrawVerticalLine
    rw [if_pos h]
  · right
    exact ⟨{ d with frameBuffer := (fun p c =>
        if yStart ≤ (p : Int) ∧ (p : Int) < yStart + height ∧ (c : Int) = x + 2 then 0xFF
        else d.frameBuffer p c) }, rfl, rfl, DrawVerticalLine_eq d x yStart height (by omega)⟩

theorem busTrace_congr_log (op1 op2 : CSH1106Device → CSH1106Device) (d d2 : CSH1106Device)
    (hl : d2.m_I2CMaster = d.m_I2CMaster) (h : op1 d = op2 d2) :
    busTrace op1 d = busTrace op2 d2 := by
  simp only [busTrace, h, hl]

theorem FramesWellFormed_DrawVerticalLine (x yStart height : Int) :
    FramesWellFormed (fun d => d.DrawVerticalLine x yStart height) := by
  intro d w hw
  rcases DrawVerticalLine_cases d x yStart height with h | ⟨d2, ha, hl, h⟩
  · have e : busTrace (fun d => d.DrawVerticalLine x yStart height) d = [] := by
      simp only [busTrace]
      rw [h, List.drop_length]
    rw [e] at hw
    exact absurd hw (List.not_mem_nil w)
  · rw [busTrace_congr_log (fun d => d.DrawVerticalLine x yStart height) RefreshDisplay d d2
      hl h] at hw
    rw [← ha]
    exact FramesWellFormed_RefreshDisplay d2 w hw

theorem UpdateBuffer_m_I2CMaster (d : CSH1106Device) (page col : Int) (v : u8) :
    (d.UpdateBuffer page col v).m_I2CMaster = d.m_I2CMaster := by
  unfold UpdateBuffer; split_ifs <;> rfl

theorem MirrorKept_RefreshDisplay : MirrorKept RefreshDisplay := by
  intro d
  rw [RefreshDisplay_emit, emit_frameBuffer]

theorem MirrorKept_RefreshPage (page : Int) : MirrorKept (fun d => d.RefreshPage page) := by
  intro d
  rcases RefreshPage_cases d page with h | ⟨p, _, h⟩
  · simp only [h]
  · simp only [h, emit_frameBuffer]

theorem busTrace_RefreshDisplay_congr (d1 d2 : CSH1106Device)
    (ha : d1.m_Address = d2.m_Address) (hf : d1.frameBuffer = d2.frameBuffer) :
    busTrace RefreshDisplay d1 = busTrace RefreshDisplay d2 := by
  rw [busTrace_of_emit RefreshDisplay d1 _ (RefreshDisplay_emit d1),
    busTrace_of_emit RefreshDisplay d2 _ (RefreshDisplay_emit d2), ha, hf]

/-- Claim C15. `WriteCommand (b)` is one bus write of `{0x00, b}` and `WriteData (b)` one
bus write of `{0x40, b}`, both to the configured address.  Every bus write of every public
operation, for every argument and device state, is a frame of exactly 2 bytes to the
configured address whose first byte is 0x00 or 0x40. -/
theorem frames_wellformed (font : Int → Int → u8) :
    (∀ (d : CSH1106Device) (b : u8),
      busTrace (fun d => d.WriteCommand b) d = [⟨d.m_Address, [0x00, b]⟩]) ∧
    (∀ (d : CSH1106Device) (b : u8),
      busTrace (fun d => d.WriteData b) d = [⟨d.m_Address, [0x40, b]⟩]) ∧
    FramesWellFormed (fun d => d.Initialize.2) ∧
    FramesWellFormed Clear ∧
    (∀ y, FramesWellFormed (fun d => d.ClearRow y)) ∧
    (∀ x y, FramesWellFormed (fun d => d.SetCursor x y)) ∧
    (∀ c x y, FramesWellFormed (fun d => DrawChar font d c x y)) ∧
    (∀ text x y, FramesWellFormed (fun d => PrintText font d text x y)) ∧
    (∀ text, FramesWellFormed (fun d => PrintCenteredText font d text)) ∧
    (∀ contrast, FramesWellFormed (fun d => d.SetContrast contrast)) ∧
    (∀ b, FramesWellFormed (fun d => d.SetDisplayOn b)) ∧
    (∀ b, FramesWellFormed (fun d => d.SetInvertDisplay b)) ∧
    (∀ direction startPage endPage,
      FramesWellFormed (fun d => d.StartHorizontalScroll direction startPage endPage)) ∧
    (∀ direction startRow endRow,
      FramesWellFormed (fun d => d.StartVerticalScroll direction startRow endRow)) ∧
    FramesWellFormed StopScroll ∧
    FramesWellFormed RefreshDisplay ∧
    (∀ page, FramesWellFormed (fun d => d.RefreshPage page)) ∧
    (∀ x y length, FramesWellFormed (fun d => d.DrawHorizontalLine x y length)) ∧
    (∀ x yStart height, FramesWellFormed (fun d => d.DrawVerticalLine x yStart height)) :=
  ⟨fun d b => busTrace_of_emit _ d _ (WriteCommand_emit d b),
   fun d b => busTrace_of_emit _ d _ (WriteData_emit d b),
   Plain_FramesWellFormed Plain_Initialize,
   Plain_FramesWellFormed Plain_Clear,
   fun y => Plain_FramesWellFormed (Plain_ClearRow y),
   fun x y => Plain_FramesWellFormed (Plain_SetCursor x y),
   fun c x y => Plain_FramesWellFormed (Plain_DrawChar font c x y),
   fun text x y => Plain_FramesWellFormed (Plain_PrintText font text x y),
   fun text => Plain_FramesWellFormed (Plain_PrintCenteredText font text),
   fun contrast => Plain_FramesWellFormed (Plain_SetContrast contrast),
   fun b => Plain_FramesWellFormed (Plain_WriteCommand (if b then 0xAF else 0xAE)),
   fun b => Plain_FramesWellFormed (Plain_WriteCommand (if b then 0xA7 else 0xA6)),
   fun direction startPage endPage =>
     Plain_FramesWellFormed (Plain_StartHorizontalScroll direction startPage endPage),
   fun direction startRow endRow =>
     Plain_FramesWellFormed (Plain_StartVerticalScroll direction startRow endRow),
   Plain_FramesWellFormed (Plain_WriteCommand 0x2E),
   FramesWellFormed_RefreshDisplay,
   FramesWellFormed_RefreshPage,
   fun x y length => Plain_FramesWellFormed (Plain_DrawHorizontalLine x y length),
   FramesWellFormed_DrawVerticalLine⟩

/-- Claim C16. Every operation other than `UpdateBuffer` and `DrawVerticalLine` leaves all
cells of the frame buffer unchanged, so `RefreshDisplay ()` after `Clear ()` sends the old
frame buffer content again.  The bus writes of every operation other than
`RefreshDisplay`, `RefreshPage` and `DrawVerticalLine` are the same whatever the frame
buffer holds. -/
theorem mirror_frame (font : Int → Int → u8) :
    (MirrorKept (fun d => d.Initialize.2) ∧
     MirrorKept Clear ∧
     (∀ y, MirrorKept (fun d => d.ClearRow y)) ∧
     (∀ x y, MirrorKept (fun d => d.SetCursor x y)) ∧
     (∀ c x y, MirrorKept (fun d => DrawChar font d c x y)) ∧
     (∀ text x y, MirrorKept (fun d => PrintText font d text x y)) ∧
     (∀ text, MirrorKept (fun d => PrintCenteredText font d text)) ∧
     (∀ x y length, MirrorKept (fun d => d.DrawHorizontalLine x y length)) ∧
     MirrorKept RefreshDisplay ∧
     (∀ page, MirrorKept (fun d => d.RefreshPage page)) ∧
     (∀ contrast, MirrorKept (fun d => d.SetContrast contrast)) ∧
     (∀ b, MirrorKept (fun d => d.SetDisplayOn b)) ∧
     (∀ b, MirrorKept (fun d => d.SetInvertDisplay b)) ∧
     (∀ direction startPage endPage,
       MirrorKept (fun d => d.StartHorizontalScroll direction startPage endPage)) ∧
     (∀ direction startRow endRow,
       MirrorKept (fun d => d.StartVerticalScroll direction startRow endRow)) ∧
     MirrorKept StopScroll) ∧
    ((∀ d : CSH1106Device, busTrace RefreshDisplay d.Clear = busTrace RefreshDisplay d) ∧
     (∀ (d : CSH1106Device) (p : Fin 8) (c : Fin 132),
       (dataBytes (busTrace RefreshDisplay d.Clear))[(p : Nat) * 132 + (c : Nat)]?
         = some (d.frameBuffer p c))) ∧
    (TraceMirrorFree (fun d => d.Initialize.2) ∧
     TraceMirrorFree Clear ∧
     (∀ y, TraceMirrorFree (fun d => d.ClearRow y)) ∧
     (∀ x y, TraceMirrorFree (fun d => d.SetCursor x y)) ∧
     (∀ c x y, TraceMirrorFree (fun d => DrawChar font d c x y)) ∧
     (∀ text x y, TraceMirrorFree (fun d => PrintText font d text x y)) ∧
     (∀ text, TraceMirrorFree (fun d => PrintCenteredText font d text)) ∧
     (∀ x y length, TraceMirrorFree (fun d => d.DrawHorizontalLine x y length)) ∧
     (∀ contrast, TraceMirrorFree (fun d => d.SetContrast contrast)) ∧
     (∀ b, TraceMirrorFree (fun d => d.SetDisplayOn b)) ∧
     (∀ b, TraceMirrorFree (fun d => d.SetInvertDisplay b)) ∧
     (∀ direction startPage endPage,
       TraceMirrorFree (fun d => d.StartHorizontalScroll direction startPage endPage)) ∧
     (∀ direction startRow endRow,
       TraceMirrorFree (fun d => d.StartVerticalScroll direction startRow endRow)) ∧
     TraceMirrorFree StopScroll ∧
     (∀ page col value, TraceMirrorFree (fun d => d.UpdateBuffer page col value))) := by
  refine ⟨⟨EmitsWith_frameBuffer Plain_Initialize,
    EmitsWith_frameBuffer Plain_Clear,
    fun y => EmitsWith_frameBuffer (Plain_ClearRow y),
    fun x y => EmitsWith_frameBuffer (Plain_SetCursor x y),
    fun c x y => EmitsWith_frameBuffer (Plain_DrawChar font c x y),
    fun text x y => EmitsWith_frameBuffer (Plain_PrintText font text x y),
    fun text => EmitsWith_frameBuffer (Plain_PrintCenteredText font text),
    fun x y length => EmitsWith_frameBuffer (Plain_DrawHorizontalLine x y length),
    MirrorKept_RefreshDisplay,
    MirrorKept_RefreshPage,
    fun contrast => EmitsWith_frameBuffer (Plain_SetContrast contrast),
    fun b => EmitsWith_frameBuffer (Plain_WriteCommand (if b then 0xAF else 0xAE)),
    fun b => EmitsWith_frameBuffer (Plain_WriteCommand (if b then 0xA7 else 0xA6)),
    fun direction startPage endPage =>
      EmitsWith_frameBuffer (Plain_StartHorizontalScroll direction startPage endPage),
    fun direction startRow endRow =>
      EmitsWith_frameBuffer (Plain_StartVerticalScroll direction startRow endRow),
    EmitsWith_frameBuffer (Plain_WriteCommand 0x2E)⟩,
    ⟨?_, ?_⟩,
    ⟨Plain_TraceMirrorFree Plain_Initialize,
    Plain_TraceMirrorFree Plain_Clear,
    fun y => Plain_TraceMirrorFree (Plain_ClearRow y),
    fun x y => Plain_TraceMirrorFree (Plain_SetCursor x y),
    fun c x y => Plain_TraceMirrorFree (Plain_DrawChar font c x y),
    fun text x y => Plain_TraceMirrorFree (Plain_PrintText font text x y),
    fun text => Plain_TraceMirrorFree (Plain_PrintCenteredText font text),
    fun x y length => Plain_TraceMirrorFree (Plain_DrawHorizontalLine x y length),
    fun contrast => Plain_TraceMirrorFree (Plain_SetContrast contrast),
    fun b => Plain_TraceMirrorFree (Plain_WriteCommand (if b then 0xAF else 0xAE)),
    fun b => Plain_TraceMirrorFree (Plain_WriteCommand (if b then 0xA7 else 0xA6)),
    fun direction startPage endPage =>
      Plain_TraceMirrorFree (Plain_StartHorizontalScroll direction startPage endPage),
    fun direction startRow endRow =>
      Plain_TraceMirrorFree (Plain_StartVerticalScroll direction startRow endRow),
    Plain_TraceMirrorFree (Plain_WriteCommand 0x2E),
    ?_⟩⟩
  · intro d
    exact busTrace_RefreshDisplay_congr _ _ (EmitsWith_m_Address Plain_Clear d)
      (EmitsWith_frameBuffer Plain_Clear d)
  · intro d p c
    rw [RefreshDisplay_dataByte, EmitsWith_frameBuffer Plain_Clear d]
  · intro page col value d1 d2 _
    simp only [busTrace, UpdateBuffer_m_I2CMaster, List.drop_length]

/-! ## Pages passed to `SetCursor` -/

theorem cursorFrames_eq (a : u8) (x y : Int) :
    cursorFrames a x y =
      [commandFrame a (toU8 (0xB0 + y)),
       commandFrame a (toU8 (0x00 + Int.land x 0x0F)),
       commandFrame a (toU8 (0x10 + (x >>> 4)))] := rfl

theorem SetCursor_cursorFrames (d : CSH1106Device) (x y : Int) :
    d.SetCursor x y = emit d (cursorFrames d.m_Address x y) := by
  rw [SetCursor_emit, cursorFrames_eq]

theorem callFrames_append (a : u8) (s t : List CursorCall) :
    callFrames a (s ++ t) = callFrames a s ++ callFrames a t := by
  simp [callFrames, List.flatMap_append]

theorem CheckedCalls_closed : ClosedUnderAppend CheckedCalls := by
  refine ⟨fun a fb => ⟨[], rfl, fun c hc => absurd hc (List.not_mem_nil c)⟩, ?_⟩
  intro g h hg hh a fb
  obtain ⟨s, hs, hs2⟩ := hg a fb
  obtain ⟨t, ht, ht2⟩ := hh a fb
  refine ⟨s ++ t, by rw [callFrames_append, ← hs, ← ht], ?_⟩
  intro c hc
  rcases List.mem_append.1 hc with h1 | h1
  · exact hs2 c h1
  · exact ht2 c h1

theorem Checked_block (x y : Int) (hy : 0 ≤ y ∧ y < 8)
    (vals : (Fin 8 → Fin 132 → u8) → List u8) (op : CSH1106Device → CSH1106Device)
    (h : ∀ d, op d = emit (d.SetCursor x y) ((vals d.frameBuffer).map (dataFrame d.m_Address))) :
    EmitsWith CheckedCalls op := by
  refine ⟨fun a fb => cursorFrames a x y ++ (vals fb).map (dataFrame a), ?_, ?_⟩
  · intro a fb
    refine ⟨[⟨x, y, vals fb⟩], by simp [callFrames], ?_⟩
    intro c hc
    rw [List.mem_singleton.1 hc]
    exact hy
  · intro d
    rw [h, SetCursor_cursorFrames, emit_emit]

theorem Checked_PagesInRange {op : CSH1106Device → CSH1106Device}
    (h : EmitsWith CheckedCalls op) : PagesInRange op := by
  obtain ⟨g, hG, hg⟩ := h
  intro d
  obtain ⟨calls, hc, hy⟩ := hG d.m_Address d.frameBuffer
  exact ⟨calls, by rw [busTrace_of_emit op d _ (hg d), hc], hy⟩

theorem Checked_zero_row (y : Int) (hy : 0 ≤ y ∧ y < 8) :
    EmitsWith CheckedCalls (fun d =>
      (List.range 132).foldl (fun d (_ : Nat) => d.WriteData 0x00) (d.SetCursor 0 y)) := by
  apply Checked_block 0 y hy (fun _ => List.replicate 132 0x00)
  intro d
  rw [foldl_WriteData_const, List.map_replicate]
  simp [SetCursor_emit]

theorem Checked_Clear : EmitsWith CheckedCalls Clear :=
  EmitsWith_foldl CheckedCalls_closed _ _ (fun page hp =>
    Checked_zero_row page (by have := List.mem_range.1 hp; omega))

theorem Checked_ClearRow (y : Int) : EmitsWith CheckedCalls (fun d => d.ClearRow y) := by
  unfold ClearRow
  by_cases h : y < 0 ∨ y ≥ 8
  · simp only [if_pos h]
    exact EmitsWith_id CheckedCalls_closed
  · simp only [if_neg h]
    exact Checked_zero_row y (by omega)

theorem Checked_DrawChar (font : Int → Int → u8) (c x y : Int) :
    EmitsWith CheckedCalls (fun d => DrawChar font d c x y) := by
  by_cases h : (c < 0x20 ∨ c > 0x7E) ∨ (x + 2 ≥ 128 ∨ y < 0 ∨ y ≥ 8)
  · have e : (fun d => DrawChar font d c x y) = fun d => d := by
      funext d
      exact DrawChar_eq_self font d c x y h
    rw [e]
    exact EmitsWith_id CheckedCalls_closed
  · apply Checked_block (x + 2) y (by omega) (fun _ =>
      ((List.range 8).filter
        (fun col : Nat => 0 ≤ x + 2 + (col : Int) ∧ x + 2 + (col : Int) < 128)).map
        (fun col : Nat => font (c - 0x20) (col : Int)))
    intro d
    rw [DrawChar_emit font d c x y (by omega) (by omega) (by omega), List.map_map]
    rfl

theorem Checked_PrintText (font : Int → Int → u8) (text : List Int) (x y : Int) :
    EmitsWith CheckedCalls (fun d => PrintText font d text x y) :=
  EmitsWith_PrintText_loop CheckedCalls_closed font (Checked_DrawChar font) text x y

theorem Checked_RefreshDisplay : EmitsWith CheckedCalls RefreshDisplay :=
  EmitsWith_foldl CheckedCalls_closed _ _ (fun page _ =>
    Checked_block 0 page (by have := page.isLt; omega)
      (fun fb => (List.finRange 132).map (fun col => fb page col)) _
      (fun d => by
        rw [refreshRow_emit, List.map_map, SetCursor_emit, emit_emit]
        simp
        rfl))

theorem Checked_RefreshPage (page : Int) :
    EmitsWith CheckedCalls (fun d => d.RefreshPage page) := by
  by_cases h : page < 0 ∨ page ≥ 8
  · have e : (fun d : CSH1106Device => d.RefreshPage page) = fun d => d := by
      funext d
      exact RefreshPage_eq_self d page h
    rw [e]
    exact EmitsWith_id CheckedCalls_closed
  · have e : page = ((⟨page.toNat, by omega⟩ : Fin 8) : Int) := by simp; omega
    apply Checked_block 0 page (by omega)
      (fun fb => (List.finRange 132).map (fun col => fb ⟨page.toNat, by omega⟩ col))
    intro d
    conv_lhs => rw [e]
    rw [RefreshPage_emit, List.map_map, SetCursor_emit, emit_emit]
    simp only [← e]
    simp
    rfl

theorem Checked_DrawHorizontalLine (x y length : Int) :
    EmitsWith CheckedCalls (fun d => d.DrawHorizontalLine x y length) := by
  by_cases h : y < 0 ∨ y ≥ 8
  · have e : (fun d : CSH1106Device => d.DrawHorizontalLine x y length) = fun d => d := by
      funext d
      unfold DrawHorizontalLine
      rw [if_pos h]
    rw [e]
    exact EmitsWith_id CheckedCalls_closed
  · apply Checked_block x y (by omega)
      (fun _ => List.replicate (max 0 (min length (128 - x))).toNat 0xFF)
    intro d
    rw [DrawHorizontalLine_emit d x y length (by omega), List.map_replicate]

theorem PagesInRange_DrawVerticalLine (x yStart height : Int) :
    PagesInRange (fun d => d.DrawVerticalLine x yStart height) := by
  intro d
  rcases DrawVerticalLine_cases d x yStart height with h | ⟨d2, ha, hl, h⟩
  · refine ⟨[], ?_, fun c hc => absurd hc (List.not_mem_nil c)⟩
    simp only [busTrace]
    rw [h, List.drop_length]
    rfl
  · rw [busTrace_congr_log (fun d => d.DrawVerticalLine x yStart height) RefreshDisplay d d2
      hl h, ← ha]
    exact Checked_PagesInRange Checked_RefreshDisplay d2

theorem pageSelect_in_range (a : u8) (x y : Int) (hy : 0 ≤ y ∧ y < 8) :
    ∃ p lo hi : u8, 0xB0 ≤ p.val ∧ p.val ≤ 0xB7 ∧ (p.val : Int) = 0xB0 + y ∧
      cursorFrames a x y = [commandFrame a p, commandFrame a lo, commandFrame a hi] := by
  refine ⟨toU8 (0xB0 + y), _, _, ?_, ?_, ?_, cursorFrames_eq a x y⟩
  all_goals simp only [toU8]
  all_goals omega

/-- Claim C18. The bus writes of `Clear`, `ClearRow`, `DrawChar`, `PrintText`,
`PrintCenteredText`, `RefreshDisplay`, `RefreshPage`, `DrawHorizontalLine` and
`DrawVerticalLine`, for every argument and device state, are those of a sequence of
`SetCursor (x, y)` calls with `y` in `[0,8)`, each followed by data bytes; and the
page-select command of `SetCursor (x, y)` with `y` in `[0,8)` is `0xB0 + y`, one of
0xB0..0xB7. -/
theorem pages_checked (font : Int → Int → u8) :
    (∀ (d : CSH1106Device) (x y : Int),
      busTrace (fun d => d.SetCursor x y) d = cursorFrames d.m_Address x y) ∧
    (∀ (a : u8) (x y : Int), 0 ≤ y → y < 8 →
      ∃ p lo hi : u8, 0xB0 ≤ p.val ∧ p.val ≤ 0xB7 ∧ (p.val : Int) = 0xB0 + y ∧
        cursorFrames a x y = [commandFrame a p, commandFrame a lo, commandFrame a hi]) ∧
    PagesInRange Clear ∧
    (∀ y, PagesInRange (fun d => d.ClearRow y)) ∧
    (∀ c x y, PagesInRange (fun d => DrawChar font d c x y)) ∧
    (∀ text x y, PagesInRange (fun d => PrintText font d text x y)) ∧
    (∀ text, PagesInRange (fun d => PrintCenteredText font d text)) ∧
    PagesInRange RefreshDisplay ∧
    (∀ page, PagesInRange (fun d => d.RefreshPage page)) ∧
    (∀ x y length, PagesInRange (fun d => d.DrawHorizontalLine x y length)) ∧
    (∀ x yStart height, PagesInRange (fun d => d.DrawVerticalLine x yStart height)) :=
  ⟨fun d x y => busTrace_of_emit _ d _ (SetCursor_cursorFrames d x y),
   fun a x y h1 h2 => pageSelect_in_range a x y ⟨h1, h2⟩,
   Checked_PagesInRange Checked_Clear,
   fun y => Checked_PagesInRange (Checked_ClearRow y),
   fun c x y => Checked_PagesInRange (Checked_DrawChar font c x y),
   fun text x y => Checked_PagesInRange (Checked_PrintText font text x y),
   fun text => Checked_PagesInRange (Checked_PrintText font text _ _),
   Checked_PagesInRange Checked_RefreshDisplay,
   fun page => Checked_PagesInRange (Checked_RefreshPage page),
   fun x y length => Checked_PagesInRange (Checked_DrawHorizontalLine x y length),
   PagesInRange_DrawVerticalLine⟩

/-! ## Layout of printed text -/

theorem ClipAndWrap_snd_le (x y : Int) : (ClipAndWrap x y).2 ≤ 7 := by
  rw [ClipAndWrap_eq]
  split_ifs <;> simp <;> omega

/-- When `ClipAndWrap` takes the cursor through the positions `pos k`, `pos (k + 1)`, ...,
the loop of `PrintText` draws the characters at these positions, one after the other. -/
theorem PrintText_loop_positions (font : Int → Int → u8) (pos : Nat → Int × Int) :
    ∀ (text : List Int) (k : Nat) (cursorX cursorY : Int) (d : CSH1106Device),
      (∀ c ∈ text, c ≠ 0) →
      (text ≠ [] → ClipAndWrap cursorX cursorY = pos k) →
      (∀ i, k ≤ i → i + 1 < k + text.length →
        ClipAndWrap ((pos i).1 + 10) (pos i).2 = pos (i + 1)) →
      PrintText.loop font text cursorX cursorY d =
        (text.enumFrom k).foldl
          (fun d (kc : Nat × Int) => DrawChar font d kc.2 (pos kc.1).1 (pos kc.1).2) d := by
  intro text
  induction text with
  | nil => intro k cursorX cursorY d _ _ _; rfl
  | cons c text ih =>
    intro k cursorX cursorY d h0 hk hstep
    have hc : c ≠ 0 := h0 c (List.mem_cons_self _ _)
    have hp : ClipAndWrap cursorX cursorY = pos k := hk (List.cons_ne_nil _ _)
    have hy : ¬ (pos k).2 ≥ 8 := by
      have := ClipAndWrap_snd_le cursorX cursorY
      rw [hp] at this
      omega
    rw [PrintText.loop, if_neg hc]
    simp only [hp, if_neg hy, List.enumFrom_cons, List.foldl_cons]
    apply ih (k + 1) _ _ _ (fun b hb => h0 b (List.mem_cons_of_mem _ hb))
    · intro hne
      apply hstep k (Nat.le_refl k)
      have : 0 < text.length := List.length_pos.2 hne
      simp only [List.length_cons]
      omega
    · intro i hi hlt
      apply hstep i (by omega)
      simp only [List.length_cons]
      omega

theorem layout_step (i : Nat) :
    ClipAndWrap (10 * ((i % 12 : Nat) : Int) + 10) (min ((i / 12 : Nat) : Int) 7) =
      (10 * (((i + 1) % 12 : Nat) : Int), min (((i + 1) / 12 : Nat) : Int) 7) := by
  rw [ClipAndWrap_eq]
  split_ifs <;> apply Prod.ext <;> simp only <;> omega

theorem foldl_emit_mem {α : Type} (step : CSH1106Device → α → CSH1106Device)
    (g : u8 → (Fin 8 → Fin 132 → u8) → α → List BusWrite) (l : List α)
    (h : ∀ a ∈ l, ∀ d, step d a = emit d (g d.m_Address d.frameBuffer a))
    (d : CSH1106Device) :
    l.foldl step d = emit d (l.flatMap (g d.m_Address d.frameBuffer)) := by
  induction l generalizing d with
  | nil => simp
  | cons a l ih =>
    rw [List.foldl_cons, ih (fun b hb => h b (List.mem_cons_of_mem _ hb)),
      h a (List.mem_cons_self _ _)]
    simp

theorem takeWhile_nonzero (text : List Int) (h0 : ∀ c ∈ text, c ≠ 0) :
    text.takeWhile (fun c => c ≠ 0) = text := by
  induction text with
  | nil => rfl
  | cons c text ih =>
    have hc : c ≠ 0 := h0 c (List.mem_cons_self _ _)
    have ih2 := ih (fun b hb => h0 b (List.mem_cons_of_mem _ hb))
    rw [List.takeWhile_cons, if_pos (by simpa using hc), ih2]

theorem center_x (n : Int) : Int.tdiv (128 - 10 * n) 2 = 64 - 5 * n := by
  have : 128 - 10 * n = 2 * (64 - 5 * n) := by ring
  rw [this, Int.mul_tdiv_cancel_left _ (by decide)]

theorem PrintCenteredText_as_PrintText (font : Int → Int → u8) (d : CSH1106Device)
    (text : List Int) (h0 : ∀ c ∈ text, c ≠ 0) :
    PrintCenteredText font d text =
      PrintText font d text (64 - 5 * (text.length : Int)) 3 := by
  simp only [PrintCenteredText, CalculateTextWidth, CalculateTextWidth_loop_eq,
    takeWhile_nonzero text h0, zero_add, center_x]

theorem PrintCenteredText_13 (font : Int → Int → u8) (d : CSH1106Device)
    (text : List Int) (hs : ∀ c ∈ text, 0x20 ≤ c ∧ c ≤ 0x7E) (hn : text.length = 13) :
    PrintCenteredText font d text =
      text.enum.foldl
        (fun d (kc : Nat × Int) =>
          DrawChar font d kc.2 (if kc.1 < 12 then 10 * (kc.1 : Int) - 1 else 0)
            (if kc.1 < 12 then 3 else 4)) d := by
  have h0 : ∀ c ∈ text, c ≠ 0 := fun c hc => by have := hs c hc; omega
  rw [PrintCenteredText_as_PrintText font d text h0, hn]
  exact PrintText_loop_positions font
    (fun k => (if k < 12 then 10 * (k : Int) - 1 else 0, if k < 12 then 3 else 4))
    text 0 _ 3 d h0 (fun _ => by decide)
    (fun i _ hi => by
      rw [ClipAndWrap_eq]
      simp only
      split_ifs <;> first | rfl | (apply Prod.ext <;> simp only <;> omega))

/-- Claim C19. For a text without NUL, `PrintText (text, 0, 0)` calls `DrawChar` once for
every character, the `k`-th character at `(10 * (k mod 12), min (k div 12, 7))`; the row
passed is never 8 or more, so the loop is never left early.  A supported character is
drawn there unclipped (cursor frames and all 8 glyph bytes), and a text of `n` supported
characters gives exactly `11 * n` bus writes. -/
theorem PrintText_layout (font : Int → Int → u8) (d : CSH1106Device) (text : List Int)
    (h0 : ∀ c ∈ text, c ≠ 0) :
    PrintText font d text 0 0 =
      text.enum.foldl
        (fun d (kc : Nat × Int) =>
          DrawChar font d kc.2 (10 * ((kc.1 % 12 : Nat) : Int)) (min ((kc.1 / 12 : Nat) : Int) 7))
        d ∧
    (∀ k : Nat, 0 ≤ min ((k / 12 : Nat) : Int) 7 ∧ min ((k / 12 : Nat) : Int) 7 < 8 ∧
      0 ≤ 10 * ((k % 12 : Nat) : Int) ∧ 10 * ((k % 12 : Nat) : Int) ≤ 110) ∧
    (∀ (k : Nat) (c : Int) (d2 : CSH1106Device), 0x20 ≤ c ∧ c ≤ 0x7E →
      busTrace (fun d =>
          DrawChar font d c (10 * ((k % 12 : Nat) : Int)) (min ((k / 12 : Nat) : Int) 7)) d2 =
        busTrace (fun d =>
          d.SetCursor (10 * ((k % 12 : Nat) : Int) + 2) (min ((k / 12 : Nat) : Int) 7)) d2 ++
        (List.range 8).map
          (fun col : Nat => dataFrame d2.m_Address (font (c - 0x20) (col : Int)))) ∧
    ((∀ c ∈ text, 0x20 ≤ c ∧ c ≤ 0x7E) →
      (busTrace (fun d => PrintText font d text 0 0) d).length = 11 * text.length) := by
  refine ⟨?_, fun k => by omega, ?_, ?_⟩
  · exact PrintText_loop_positions font
      (fun k => (10 * ((k % 12 : Nat) : Int), min ((k / 12 : Nat) : Int) 7))
      text 0 0 0 d h0 (fun _ => by decide) (fun i _ _ => layout_step i)
  · intro k c d2 hc
    have h := DrawChar_emit font d2 c (10 * ((k % 12 : Nat) : Int))
      (min ((k / 12 : Nat) : Int) 7) hc (by omega) (by omega)
    rw [visible_all _ (by omega) (by omega), SetCursor_emit, emit_emit] at h
    rw [busTrace_of_emit _ d2 _ h, busTrace_of_emit _ d2 _ (SetCursor_emit d2 _ _)]
  · intro hs
    have := PrintText_loop_length font text hs 0 0 d (by decide) (by decide)
    simp only [busTrace, PrintText, List.length_drop, this]
    omega

/-- Witness of C19: the text "HI". -/
theorem PrintText_layout_witness :
    (∀ c ∈ ([0x48, 0x49] : List Int), c ≠ 0) ∧
    PrintText sampleFont sampleDevice [0x48, 0x49] 0 0 =
      ([0x48, 0x49] : List Int).enum.foldl
        (fun d (kc : Nat × Int) =>
          DrawChar sampleFont d kc.2 (10 * ((kc.1 % 12 : Nat) : Int))
            (min ((kc.1 / 12 : Nat) : Int) 7))
        sampleDevice :=
  ⟨by decide, (PrintText_layout sampleFont sampleDevice [0x48, 0x49] (by decide)).1⟩


/-- Claim C20. For a text of `n <= 12` supported characters, `PrintCenteredText (text)`
draws the `k`-th character with `SetCursor ((128 - 10 * n) / 2 + 10 * k + 2, 3)` followed
by all 8 of its glyph bytes; every cursor column is in `[0,128)`, every page-select
command is 0xB3, and there are exactly `11 * n` bus writes.  With 13 supported characters
the first 12 are drawn on page 3 and the last one is drawn at `(0, 4)`. -/
theorem PrintCenteredText_layout (font : Int → Int → u8) (d : CSH1106Device)
    (text : List Int) (hs : ∀ c ∈ text, 0x20 ≤ c ∧ c ≤ 0x7E) (hn : text.length ≤ 12) :
    PrintCenteredText font d text =
      text.enum.foldl
        (fun d (kc : Nat × Int) =>
          DrawChar font d kc.2
            (Int.tdiv (128 - 10 * (text.length : Int)) 2 + 10 * (kc.1 : Int)) 3) d ∧
    busTrace (fun d => PrintCenteredText font d text) d =
      text.enum.flatMap (fun kc : Nat × Int =>
        busTrace (fun d => d.SetCursor
          (Int.tdiv (128 - 10 * (text.length : Int)) 2 + 10 * (kc.1 : Int) + 2) 3) d ++
        (List.range 8).map
          (fun col : Nat => dataFrame d.m_Address (font (kc.2 - 0x20) (col : Int)))) ∧
    (∀ k : Nat, k < text.length →
      0 ≤ Int.tdiv (128 - 10 * (text.length : Int)) 2 + 10 * (k : Int) + 2 ∧
      Int.tdiv (128 - 10 * (text.length : Int)) 2 + 10 * (k : Int) + 2 < 128) ∧
    (∀ x : Int, ∃ lo hi : u8, busTrace (fun d => d.SetCursor x 3) d =
      [commandFrame d.m_Address 0xB3, commandFrame d.m_Address lo,
       commandFrame d.m_Address hi]) ∧
    (busTrace (fun d => PrintCenteredText font d text) d).length = 11 * text.length ∧
    (∀ longer : List Int, (∀ c ∈ longer, 0x20 ≤ c ∧ c ≤ 0x7E) → longer.length = 13 →
      PrintCenteredText font d longer =
        longer.enum.foldl
          (fun d (kc : Nat × Int) =>
            DrawChar font d kc.2 (if kc.1 < 12 then 10 * (kc.1 : Int) - 1 else 0)
              (if kc.1 < 12 then 3 else 4)) d) := by
  have h0 : ∀ c ∈ text, c ≠ 0 := fun c hc => by have := hs c hc; omega
  have hx := center_x (text.length : Int)
  have hfold : PrintCenteredText font d text =
      text.enum.foldl
        (fun d (kc : Nat × Int) =>
          DrawChar font d kc.2
            (Int.tdiv (128 - 10 * (text.length : Int)) 2 + 10 * (kc.1 : Int)) 3) d := by
    rw [PrintCenteredText_as_PrintText font d text h0, hx]
    exact PrintText_loop_positions font
      (fun k => (64 - 5 * (text.length : Int) + 10 * (k : Int), 3))
      text 0 _ 3 d h0
      (fun hne => by
        have : 0 < text.length := List.length_pos.2 hne
        rw [ClipAndWrap_eq]
        simp only [Nat.cast_zero, mul_zero, add_zero]
        split_ifs <;> first | rfl | omega)
      (fun i _ hi => by
        rw [ClipAndWrap_eq]
        simp only
        split_ifs <;> first | rfl | (apply Prod.ext <;> simp only <;> omega))
  have htrace : busTrace (fun d => PrintCenteredText font d text) d =
      text.enum.flatMap (fun kc : Nat × Int =>
        busTrace (fun d => d.SetCursor
          (Int.tdiv (128 - 10 * (text.length : Int)) 2 + 10 * (kc.1 : Int) + 2) 3) d ++
        (List.range 8).map
          (fun col : Nat => dataFrame d.m_Address (font (kc.2 - 0x20) (col : Int)))) := by
    apply busTrace_of_emit
    rw [hfold]
    have e : ∀ x : Int, busTrace (fun d => d.SetCursor x 3) d = cursorFrames d.m_Address x 3 :=
      fun x => busTrace_of_emit _ d _ (SetCursor_cursorFrames d x 3)
    simp only [e]
    apply foldl_emit_mem _ (fun a _ (kc : Nat × Int) =>
      cursorFrames a (Int.tdiv (128 - 10 * (text.length : Int)) 2 + 10 * (kc.1 : Int) + 2) 3 ++
        (List.range 8).map (fun col : Nat => dataFrame a (font (kc.2 - 0x20) (col : Int))))
    intro kc hkc d2
    have h1 := List.fst_lt_add_of_mem_enumFrom hkc
    have h2 := hs kc.2 (List.snd_mem_of_mem_enumFrom hkc)
    rw [DrawChar_emit font d2 kc.2 _ 3 h2 (by decide) (by omega),
      visible_all _ (by omega) (by omega), SetCursor_cursorFrames, emit_emit]
  refine ⟨hfold, htrace, fun k hk => by omega, fun x =>
    ⟨toU8 (0x00 + Int.land x 0x0F), toU8 (0x10 + (x >>> 4)), ?_⟩, ?_,
    fun longer hl hl13 => PrintCenteredText_13 font d longer hl hl13⟩
  · rw [busTrace_of_emit _ d _ (SetCursor_emit d x 3)]
    rfl
  · have := PrintText_loop_length font text hs (64 - 5 * (text.length : Int)) 3 d
      (by omega) (by decide)
    simp only [busTrace, PrintCenteredText_as_PrintText font d text h0, PrintText,
      List.length_drop, this]
    omega


/-- Witness of C20: the text "HI". -/
theorem PrintCenteredText_layout_witness :
    (∀ c ∈ ([0x48, 0x49] : List Int), 0x20 ≤ c ∧ c ≤ 0x7E) ∧
    ([0x48, 0x49] : List Int).length ≤ 12 ∧
    (busTrace (fun d => PrintCenteredText sampleFont d [0x48, 0x49]) sampleDevice).length
      = 11 * ([0x48, 0x49] : List Int).length :=
  ⟨by decide, by decide,
    (PrintCenteredText_layout sampleFont sampleDevice [0x48, 0x49] (by decide)
      (by decide)).2.2.2.2.1⟩

end CSH1106Device

end SH1106
